import Mathlib

/-!
# Verification of the Grisu2 binary-to-decimal conversion core (`src/grisu2.h`)

This file gives a shallow embedding of the Grisu2 implementation found in
`src/grisu2.h` (namespace `grisu`) and proves, or refutes, the claims made by
the natural-language specification of the repository.

Conventions of the embedding:
* C `uint64_t` values are modelled as `Nat`; every operation whose C result is
  reduced modulo `2^64` is wrapped in `u64`.  C `uint32_t` casts become `% 2^32`.
* C `int` values (exponents, lengths, loop indices) are modelled as `Int` or,
  where the source guarantees non-negativity, as `Nat`.  C integer division on
  `int` truncates toward zero and is therefore modelled with `Int.tdiv`.
* The digit buffer (`char*`) is modelled as a `List Nat` of digit values.
* The three unbounded `for (;;)` loops of the source are modelled with an
  explicit fuel parameter chosen large enough; the theorems below show the
  loops exit well within the provided fuel on all inputs of interest.
* Source `assert`s that the claims talk about are modelled as explicit boolean
  flags threaded through the corresponding loop definitions.
-/

namespace Grisu

/-- Reduction modulo `2^64`, the behaviour of C `uint64_t` arithmetic. -/
def u64 (n : Nat) : Nat := n % 18446744073709551616

/-- C `uint64_t` subtraction `a - b` (two's complement wrap-around). -/
def usub64 (a b : Nat) : Nat := (a + 18446744073709551616 - b) % 18446744073709551616

/-- C `uint64_t` addition `a + b`. -/
def uadd64 (a b : Nat) : Nat := (a + b) % 18446744073709551616

/-- `struct DiyFp` from the source: the value `f * 2^e` with a 64-bit
significand `f` and a binary exponent `e`. -/
structure DiyFp where
  f : Nat
  e : Int
deriving DecidableEq, Repr

/-- `Subtract` from the source.  PRE: `x.e == y.e` and `x.f >= y.f`. -/
def Subtract (x y : DiyFp) : DiyFp := ⟨x.f - y.f, x.e⟩

/-- `Multiply`, first branch of the source (MSVC `_umul128` intrinsic):
`l = _umul128(x.f, y.f, &h); h += l >> 63`. -/
def MultiplyUmul128 (x y : DiyFp) : DiyFp :=
  let h := (x.f * y.f) / 18446744073709551616
  let l := u64 (x.f * y.f)
  ⟨u64 (h + l / 9223372036854775808), x.e + y.e + 64⟩

/-- `Multiply`, second branch of the source (GCC `unsigned __int128`):
`p = x.f * y.f; h = p >> 64; l = p; h += l >> 63`.  The 128-bit product is
reduced modulo `2^128` as `unsigned __int128` arithmetic would be. -/
def MultiplyUint128 (x y : DiyFp) : DiyFp :=
  let p := (x.f * y.f) % 340282366920938463463374607431768211456
  let h := p / 18446744073709551616
  let l := u64 p
  ⟨u64 (h + l / 9223372036854775808), x.e + y.e + 64⟩

/-- `Multiply`, third branch of the source: the portable four-`32x32`
schoolbook decomposition, with the rounding bit `2^31` added into the cross
term `Q` before `Q` is shifted right by 32. -/
def MultiplyPortable (x y : DiyFp) : DiyFp :=
  let u_lo := x.f % 4294967296
  let u_hi := (x.f / 4294967296) % 4294967296
  let v_lo := y.f % 4294967296
  let v_hi := (y.f / 4294967296) % 4294967296
  let p0 := u_lo * v_lo
  let p1 := u_lo * v_hi
  let p2 := u_hi * v_lo
  let p3 := u_hi * v_hi
  let p0_hi := p0 / 4294967296
  let p1_lo := p1 % 4294967296
  let p1_hi := p1 / 4294967296
  let p2_lo := p2 % 4294967296
  let p2_hi := p2 / 4294967296
  let q0 := p0_hi + p1_lo + p2_lo
  let q1 := q0 + 2147483648
  ⟨u64 (p3 + p2_hi + p1_hi + q1 / 4294967296), x.e + y.e + 64⟩

/-- The function the source's comment on `Multiply` specifies:
`f = round((x.f * y.f) / 2^q)` with ties rounded up, `e = x.e + y.e + q`,
i.e. significand `⌊(x.f * y.f + 2^63) / 2^64⌋`. -/
def MultiplySpecFn (x y : DiyFp) : DiyFp :=
  ⟨(x.f * y.f + 9223372036854775808) / 18446744073709551616, x.e + y.e + 64⟩

/-- The `Multiply` used by the rest of the embedding (the `__int128` branch,
the one active under GCC/Clang). -/
def Multiply (x y : DiyFp) : DiyFp := MultiplyUint128 x y

theorem mulhi_round_eq (P : Nat) (hP : P ≤ 18446744073709551615 * 18446744073709551615) :
    (P / 18446744073709551616 + P % 18446744073709551616 / 9223372036854775808) %
        18446744073709551616 =
      (P + 9223372036854775808) / 18446744073709551616 := by
  omega

theorem MultiplyUmul128_eq_spec (x y : DiyFp) (hx : x.f < 18446744073709551616)
    (hy : y.f < 18446744073709551616) : MultiplyUmul128 x y = MultiplySpecFn x y := by
  have hP : x.f * y.f ≤ 18446744073709551615 * 18446744073709551615 :=
    Nat.mul_le_mul (by omega) (by omega)
  simp only [MultiplyUmul128, MultiplySpecFn, u64]
  exact congrArg (DiyFp.mk _) rfl |>.trans (by rw [mulhi_round_eq _ hP])

theorem MultiplyUint128_eq_spec (x y : DiyFp) (hx : x.f < 18446744073709551616)
    (hy : y.f < 18446744073709551616) : MultiplyUint128 x y = MultiplySpecFn x y := by
  have hP : x.f * y.f ≤ 18446744073709551615 * 18446744073709551615 :=
    Nat.mul_le_mul (by omega) (by omega)
  have hP' : x.f * y.f % 340282366920938463463374607431768211456 = x.f * y.f :=
    Nat.mod_eq_of_lt (by omega)
  simp only [MultiplyUint128, MultiplySpecFn, u64, hP']
  rw [mulhi_round_eq _ hP]

theorem MultiplyPortable_eq_spec (x y : DiyFp) (hx : x.f < 18446744073709551616)
    (hy : y.f < 18446744073709551616) : MultiplyPortable x y = MultiplySpecFn x y := by
  simp only [MultiplyPortable, MultiplySpecFn]
  congr 1
  have hdecomp : x.f * y.f =
      18446744073709551616 * ((x.f / 4294967296) % 4294967296 * ((y.f / 4294967296) % 4294967296)) +
      4294967296 * (x.f % 4294967296 * ((y.f / 4294967296) % 4294967296)) +
      4294967296 * ((x.f / 4294967296) % 4294967296 * (y.f % 4294967296)) +
      x.f % 4294967296 * (y.f % 4294967296) := by
    have hx1 : x.f / 4294967296 % 4294967296 = x.f / 4294967296 := by
      have : x.f / 4294967296 < 4294967296 := by omega
      exact Nat.mod_eq_of_lt this
    have hy1 : y.f / 4294967296 % 4294967296 = y.f / 4294967296 := by
      have : y.f / 4294967296 < 4294967296 := by omega
      exact Nat.mod_eq_of_lt this
    rw [hx1, hy1]
    have hx2 : x.f = 4294967296 * (x.f / 4294967296) + x.f % 4294967296 :=
      (Nat.div_add_mod' x.f 4294967296).symm ▸ by omega
    have hy2 : y.f = 4294967296 * (y.f / 4294967296) + y.f % 4294967296 :=
      (Nat.div_add_mod' y.f 4294967296).symm ▸ by omega
    conv_lhs => rw [hx2, hy2]
    ring
  generalize hP3 : (x.f / 4294967296) % 4294967296 * ((y.f / 4294967296) % 4294967296) = p3 at *
  generalize hP1 : x.f % 4294967296 * ((y.f / 4294967296) % 4294967296) = p1 at *
  generalize hP2 : (x.f / 4294967296) % 4294967296 * (y.f % 4294967296) = p2 at *
  generalize hP0 : x.f % 4294967296 * (y.f % 4294967296) = p0 at *
  have b0 : p0 ≤ 4294967295 * 4294967295 := hP0 ▸ Nat.mul_le_mul (by omega) (by omega)
  have b1 : p1 ≤ 4294967295 * 4294967295 := hP1 ▸ Nat.mul_le_mul (by omega) (by omega)
  have b2 : p2 ≤ 4294967295 * 4294967295 := hP2 ▸ Nat.mul_le_mul (by omega) (by omega)
  have b3 : p3 ≤ 4294967295 * 4294967295 := hP3 ▸ Nat.mul_le_mul (by omega) (by omega)
  simp only [u64]
  omega

/-- **C2.** `Multiply(x, y)` returns the significand
`⌊(x.f * y.f + 2^63) / 2^64⌋` and the exponent `x.e + y.e + 64`, and all three
implementation strategies of the source (the `_umul128` intrinsic, the widening
`unsigned __int128` multiply, and the four-`32x32` schoolbook decomposition
that folds the rounding bit into the cross term before the final shift)
compute this same function, for every pair of `DiyFp` values with 64-bit
significands. -/
theorem multiply_strategies_agree (x y : DiyFp)
    (hx : x.f < 18446744073709551616) (hy : y.f < 18446744073709551616) :
    MultiplyUmul128 x y = MultiplySpecFn x y ∧
    MultiplyUint128 x y = MultiplySpecFn x y ∧
    MultiplyPortable x y = MultiplySpecFn x y :=
  ⟨MultiplyUmul128_eq_spec x y hx hy, MultiplyUint128_eq_spec x y hx hy,
   MultiplyPortable_eq_spec x y hx hy⟩

/-- Witness for `multiply_strategies_agree` at a concrete input. -/
theorem multiply_strategies_agree_witness :
    (⟨9223372036854775809, -3⟩ : DiyFp).f < 18446744073709551616 ∧
    (⟨12353653155963782858, 7⟩ : DiyFp).f < 18446744073709551616 ∧
    (MultiplyUmul128 ⟨9223372036854775809, -3⟩ ⟨12353653155963782858, 7⟩ =
        MultiplySpecFn ⟨9223372036854775809, -3⟩ ⟨12353653155963782858, 7⟩ ∧
      MultiplyUint128 ⟨9223372036854775809, -3⟩ ⟨12353653155963782858, 7⟩ =
        MultiplySpecFn ⟨9223372036854775809, -3⟩ ⟨12353653155963782858, 7⟩ ∧
      MultiplyPortable ⟨9223372036854775809, -3⟩ ⟨12353653155963782858, 7⟩ =
        MultiplySpecFn ⟨9223372036854775809, -3⟩ ⟨12353653155963782858, 7⟩) :=
  ⟨by decide, by decide,
   multiply_strategies_agree _ _ (by decide) (by decide)⟩

/-- Fuel-bounded floor-log2; agrees with `Nat.log2` whenever `n < 2^fuel`
(lemma `floorLog2_eq_log2`).  Defined by structural recursion so that the
kernel can evaluate it on concrete inputs. -/
def floorLog2 : Nat → Nat → Nat
  | 0, _ => 0
  | fuel+1, n => if n ≤ 1 then 0 else floorLog2 fuel (n / 2) + 1

theorem floorLog2_eq_log2 : ∀ fuel n, n < 2^fuel → floorLog2 fuel n = Nat.log2 n := by
  intro fuel
  induction fuel with
  | zero =>
    intro n h
    have hn : n = 0 := by simpa using h
    subst hn
    have h2 : Nat.log2 0 = 0 := by rw [Nat.log2]; norm_num
    rw [h2]
    rfl
  | succ f ih =>
    intro n h
    show (if n ≤ 1 then 0 else floorLog2 f (n / 2) + 1) = Nat.log2 n
    by_cases h1 : n ≤ 1
    · have hl : Nat.log2 n = 0 := by
        rw [Nat.log2]
        have hn2 : ¬ (n ≥ 2) := by omega
        simp [hn2]
      simp [h1, hl]
    · have hn2 : n ≥ 2 := by omega
      have hrec : Nat.log2 n = Nat.log2 (n / 2) + 1 := by
        conv_lhs => rw [Nat.log2]
        simp [hn2]
      have hdiv : n / 2 < 2^f := by
        have hp : (2:Nat)^(f+1) = 2 * 2^f := by rw [Nat.pow_succ']
        omega
      simp [h1, hrec, ih _ hdiv]

/-- `Normalize` (the `__builtin_clzll` branch of the source): shift the
significand left until its top bit is set, decrementing the exponent by the
shift amount.  For `1 ≤ f < 2^64` the count of leading zeros of the 64-bit
value `f` is `63 - floorLog2 64 f`.  PRE: `x.f ≠ 0`. -/
def Normalize (x : DiyFp) : DiyFp :=
  let lz := 63 - floorLog2 64 x.f
  ⟨u64 (x.f * 2^lz), x.e - lz⟩

/-- `NormalizeTo`: shift the significand left so that the result has the
exponent `e`.  PRE: `e ≤ x.e` and the upper `x.e - e` bits of `x.f` are zero. -/
def NormalizeTo (x : DiyFp) (e : Int) : DiyFp :=
  let delta := (x.e - e).toNat
  ⟨u64 (x.f * 2^delta), e⟩

/-- `struct Boundaries` from the source. -/
structure Boundaries where
  v : DiyFp
  m_minus : DiyFp
  m_plus : DiyFp
deriving DecidableEq, Repr

/-- The IEEE-decode prologue of `ComputeBoundaries`: split the bit pattern
into biased exponent `E` and fraction `F` and build the raw (unnormalized)
`DiyFp`.  `prec` is the significand width including the hidden bit (53 for
double, 24 for single) and `bias = max_exponent - 1 + (prec - 1)` (1075 for
double, 150 for single). -/
def DecodeDiyFp (prec bias : Nat) (bits : Nat) : DiyFp :=
  let hiddenBit := 2^(prec - 1)
  let E := bits / hiddenBit
  let F := bits % hiddenBit
  if E = 0 then ⟨F, 1 - (bias : Int)⟩ else ⟨F + hiddenBit, (E : Int) - bias⟩

/-- `ComputeBoundaries` from the source, for a strictly positive finite bit
pattern `bits` of an IEEE single or double. -/
def ComputeBoundaries (prec bias : Nat) (bits : Nat) : Boundaries :=
  let hiddenBit := 2^(prec - 1)
  let E := bits / hiddenBit
  let F := bits % hiddenBit
  let v := DecodeDiyFp prec bias bits
  let lowerBoundaryIsCloser := F = 0 ∧ 1 < E
  let m_plus : DiyFp := ⟨u64 (2 * v.f + 1), v.e - 1⟩
  let m_minus : DiyFp :=
    if lowerBoundaryIsCloser then ⟨u64 (4 * v.f - 1), v.e - 2⟩
    else ⟨u64 (2 * v.f - 1), v.e - 1⟩
  let w := Normalize v
  let w_plus := NormalizeTo m_plus w.e
  let w_minus := NormalizeTo m_minus w_plus.e
  ⟨w, w_minus, w_plus⟩

/-- `struct CachedPower`: `f * 2^e` approximates `10^k`, `f` normalized. -/
structure CachedPower where
  f : Nat
  e : Int
  k : Int
deriving DecidableEq, Repr

def kAlpha : Int := -60
def kGamma : Int := -32
def kCachedPowersMinDecExp : Int := -300
def kCachedPowersDecExpStep : Int := 8

set_option maxHeartbeats 1000000 in
/-- The static table of 79 cached powers of ten from `GetCachedPower`,
transcribed entry for entry (hex significands in the trailing comments). -/
def kCachedPowers : List CachedPower := [
  CachedPower.mk 12353653155963782858 (-1060) (-300),  -- 0xAB70FE17C79AC6CA
  CachedPower.mk 18408377700990114895 (-1034) (-292),  -- 0xFF77B1FCBEBCDC4F
  CachedPower.mk 13715310171984221708 (-1007) (-284),  -- 0xBE5691EF416BD60C
  CachedPower.mk 10218702384817765436 (-980) (-276),  -- 0x8DD01FAD907FFC3C
  CachedPower.mk 15227053142812498563 (-954) (-268),  -- 0xD3515C2831559A83
  CachedPower.mk 11345038669416679861 (-927) (-260),  -- 0x9D71AC8FADA6C9B5
  CachedPower.mk 16905424996341287883 (-901) (-252),  -- 0xEA9C227723EE8BCB
  CachedPower.mk 12595523146049147757 (-874) (-244),  -- 0xAECC49914078536D
  CachedPower.mk 9384396036005875287 (-847) (-236),  -- 0x823C12795DB6CE57
  CachedPower.mk 13983839803942852151 (-821) (-228),  -- 0xC21094364DFB5637
  CachedPower.mk 10418772551374772303 (-794) (-220),  -- 0x9096EA6F3848984F
  CachedPower.mk 15525180923007089351 (-768) (-212),  -- 0xD77485CB25823AC7
  CachedPower.mk 11567161174868858868 (-741) (-204),  -- 0xA086CFCD97BF97F4
  CachedPower.mk 17236413322193710309 (-715) (-196),  -- 0xEF340A98172AACE5
  CachedPower.mk 12842128665889583758 (-688) (-188),  -- 0xB23867FB2A35B28E
  CachedPower.mk 9568131466127621947 (-661) (-180),  -- 0x84C8D4DFD2C63F3B
  CachedPower.mk 14257626930069360058 (-635) (-172),  -- 0xC5DD44271AD3CDBA
  CachedPower.mk 10622759856335341974 (-608) (-164),  -- 0x936B9FCEBB25C996
  CachedPower.mk 15829145694278690180 (-582) (-156),  -- 0xDBAC6C247D62A584
  CachedPower.mk 11793632577567316726 (-555) (-148),  -- 0xA3AB66580D5FDAF6
  CachedPower.mk 17573882009934360870 (-529) (-140),  -- 0xF3E2F893DEC3F126
  CachedPower.mk 13093562431584567480 (-502) (-132),  -- 0xB5B5ADA8AAFF80B8
  CachedPower.mk 9755464219737475723 (-475) (-124),  -- 0x87625F056C7C4A8B
  CachedPower.mk 14536774485912137811 (-449) (-116),  -- 0xC9BCFF6034C13053
  CachedPower.mk 10830740992659433045 (-422) (-108),  -- 0x964E858C91BA2655
  CachedPower.mk 16139061738043178685 (-396) (-100),  -- 0xDFF9772470297EBD
  CachedPower.mk 12024538023802026127 (-369) (-92),  -- 0xA6DFBD9FB8E5B88F
  CachedPower.mk 17917957937422433684 (-343) (-84),  -- 0xF8A95FCF88747D94
  CachedPower.mk 13349918974505688015 (-316) (-76),  -- 0xB94470938FA89BCF
  CachedPower.mk 9946464728195732843 (-289) (-68),  -- 0x8A08F0F8BF0F156B
  CachedPower.mk 14821387422376473014 (-263) (-60),  -- 0xCDB02555653131B6
  CachedPower.mk 11042794154864902060 (-236) (-52),  -- 0x993FE2C6D07B7FAC
  CachedPower.mk 16455045573212060422 (-210) (-44),  -- 0xE45C10C42A2B3B06
  CachedPower.mk 12259964326927110867 (-183) (-36),  -- 0xAA242499697392D3
  CachedPower.mk 18268770466636286478 (-157) (-28),  -- 0xFD87B5F28300CA0E
  CachedPower.mk 13611294676837538539 (-130) (-20),  -- 0xBCE5086492111AEB
  CachedPower.mk 10141204801825835212 (-103) (-12),  -- 0x8CBCCC096F5088CC
  CachedPower.mk 15111572745182864684 (-77) (-4),  -- 0xD1B71758E219652C
  CachedPower.mk 11258999068426240000 (-50) (4),  -- 0x9C40000000000000
  CachedPower.mk 16777216000000000000 (-24) (12),  -- 0xE8D4A51000000000
  CachedPower.mk 12500000000000000000 (3) (20),  -- 0xAD78EBC5AC620000
  CachedPower.mk 9313225746154785156 (30) (28),  -- 0x813F3978F8940984
  CachedPower.mk 13877787807814456755 (56) (36),  -- 0xC097CE7BC90715B3
  CachedPower.mk 10339757656912845936 (83) (44),  -- 0x8F7E32CE7BEA5C70
  CachedPower.mk 15407439555097886824 (109) (52),  -- 0xD5D238A4ABE98068
  CachedPower.mk 11479437019748901445 (136) (60),  -- 0x9F4F2726179A2245
  CachedPower.mk 17105694144590052135 (162) (68),  -- 0xED63A231D4C4FB27
  CachedPower.mk 12744735289059618216 (189) (76),  -- 0xB0DE65388CC8ADA8
  CachedPower.mk 9495567745759798747 (216) (84),  -- 0x83C7088E1AAB65DB
  CachedPower.mk 14149498560666738074 (242) (92),  -- 0xC45D1DF942711D9A
  CachedPower.mk 10542197943230523224 (269) (100),  -- 0x924D692CA61BE758
  CachedPower.mk 15709099088952724970 (295) (108),  -- 0xDA01EE641A708DEA
  CachedPower.mk 11704190886730495818 (322) (116),  -- 0xA26DA3999AEF774A
  CachedPower.mk 17440603504673385349 (348) (124),  -- 0xF209787BB47D6B85
  CachedPower.mk 12994262207056124023 (375) (132),  -- 0xB454E4A179DD1877
  CachedPower.mk 9681479787123295682 (402) (140),  -- 0x865B86925B9BC5C2
  CachedPower.mk 14426529090290212157 (428) (148),  -- 0xC83553C5C8965D3D
  CachedPower.mk 10748601772107342003 (455) (156),  -- 0x952AB45CFA97A0B3
  CachedPower.mk 16016664761464807395 (481) (164),  -- 0xDE469FBD99A05FE3
  CachedPower.mk 11933345169920330789 (508) (172),  -- 0xA59BC234DB398C25
  CachedPower.mk 17782069995880619868 (534) (180),  -- 0xF6C69A72A3989F5C
  CachedPower.mk 13248674568444952270 (561) (188),  -- 0xB7DCBF5354E9BECE
  CachedPower.mk 9871031767461413346 (588) (196),  -- 0x88FCF317F22241E2
  CachedPower.mk 14708983551653345445 (614) (204),  -- 0xCC20CE9BD35C78A5
  CachedPower.mk 10959046745042015199 (641) (212),  -- 0x98165AF37B2153DF
  CachedPower.mk 16330252207878254650 (667) (220),  -- 0xE2A0B5DC971F303A
  CachedPower.mk 12166986024289022870 (694) (228),  -- 0xA8D9D1535CE3B396
  CachedPower.mk 18130221999122236476 (720) (236),  -- 0xFB9B7CD9A4A7443C
  CachedPower.mk 13508068024458167312 (747) (244),  -- 0xBB764C4CA7A44410
  CachedPower.mk 10064294952495520794 (774) (252),  -- 0x8BAB8EEFB6409C1A
  CachedPower.mk 14996968138956309548 (800) (260),  -- 0xD01FEF10A657842C
  CachedPower.mk 11173611982879273257 (827) (268),  -- 0x9B10A4E5E9913129
  CachedPower.mk 16649979327439178909 (853) (276),  -- 0xE7109BFBA19C0C9D
  CachedPower.mk 12405201291620119593 (880) (284),  -- 0xAC2820D9623BF429
  CachedPower.mk 9242595204427927429 (907) (292),  -- 0x80444B5E7AA7CF85
  CachedPower.mk 13772540099066387757 (933) (300),  -- 0xBF21E44003ACDD2D
  CachedPower.mk 10261342003245940623 (960) (308),  -- 0x8E679C2F5E44FF8F
  CachedPower.mk 15290591125556738113 (986) (316),  -- 0xD433179D9C8CB841
  CachedPower.mk 11392378155556871081 (1013) (324)  -- 0x9E19DB92B4E31BA9
]

/-- `GetCachedPower`: direct table lookup.  PRE: `index < 79`. -/
def GetCachedPower (index : Nat) : CachedPower := kCachedPowers.getD index ⟨0, 0, 0⟩

/-- The decimal exponent `k` computed inside `GetCachedPowerForBinaryExponent`:
`k = (f * 78913) / 2^18 + (f > 0)` where `f = kAlpha - e - 1` and `/` is C
`int` division, which truncates toward zero (`Int.tdiv`). -/
def CachedPowerK (e : Int) : Int :=
  let f := kAlpha - e - 1
  Int.tdiv (f * 78913) (2^18) + (if 0 < f then 1 else 0)

/-- The table index computed inside `GetCachedPowerForBinaryExponent`. -/
def CachedPowerIndex (e : Int) : Int :=
  Int.tdiv (-kCachedPowersMinDecExp + CachedPowerK e + (kCachedPowersDecExpStep - 1))
    kCachedPowersDecExpStep

/-- `GetCachedPowerForBinaryExponent` from the source. -/
def GetCachedPowerForBinaryExponent (e : Int) : CachedPower :=
  GetCachedPower (CachedPowerIndex e).toNat

/-- The `k` formula exactly as the specification words it:
`k = ⌊f * 78913 / 2^18⌋ + (1 if f > 0 else 0)` with a true floor division
(`Int.fdiv`).  Used to compare the specification against the code, which
truncates toward zero instead. -/
def CachedPowerKSpecFloor (e : Int) : Int :=
  let f := kAlpha - e - 1
  Int.fdiv (f * 78913) (2^18) + (if 0 < f then 1 else 0)

/-- The table index that the specification formula (with floor division)
would produce. -/
def CachedPowerIndexSpecFloor (e : Int) : Int :=
  Int.tdiv (-kCachedPowersMinDecExp + CachedPowerKSpecFloor e + (kCachedPowersDecExpStep - 1))
    kCachedPowersDecExpStep

/-- The cached power that the specification formula (with floor division)
would select. -/
def GetCachedPowerForBinaryExponentSpecFloor (e : Int) : CachedPower :=
  GetCachedPower (CachedPowerIndexSpecFloor e).toNat

/-- One instance of the bounded cached-power check: for `e = -1137 + i`,
the index is in range, the selected power is normalized, the exponent of the
product lies in the window `[-60, -34]`, and the significand bound that caps
the integral part `p1` of the digit generator holds. -/
def CachedPowerCheckAt (i : Nat) : Bool :=
  let e : Int := -1137 + i
  let idx := CachedPowerIndex e
  let c := GetCachedPowerForBinaryExponent e
  decide (0 ≤ idx) && decide (idx < 79) &&
  decide (9223372036854775808 ≤ c.f) && decide (c.f < 18446744073709551616) &&
  decide (kAlpha ≤ c.e + e + 64) && decide (c.e + e + 64 ≤ -34) &&
  decide ((c.f - 1) / 2^(-(c.e + e + 64)).toNat ≤ 798336123)

/-- Conjunction of `CachedPowerCheckAt i` for all `i < n`. -/
def CachedPowerCheckBelow : Nat → Bool
  | 0 => true
  | n+1 => CachedPowerCheckAt n && CachedPowerCheckBelow n

set_option maxRecDepth 10000 in
theorem cachedPowerCheck_all : CachedPowerCheckBelow 2098 = true := by decide

theorem cachedPowerCheckBelow_spec :
    ∀ n, CachedPowerCheckBelow n = true → ∀ i, i < n → CachedPowerCheckAt i = true := by
  intro n
  induction n with
  | zero => intro _ i hi; exact absurd hi (Nat.not_lt_zero i)
  | succ m ih =>
    intro h i hi
    have h2 : CachedPowerCheckAt m = true ∧ CachedPowerCheckBelow m = true := by
      simpa [CachedPowerCheckBelow, Bool.and_eq_true] using h
    rcases Nat.lt_succ_iff_lt_or_eq.mp hi with hlt | heq
    · exact ih h2.2 i hlt
    · exact heq ▸ h2.1

/-- The properties of the cached power selected for any binary exponent in
`[-1137, 960]` (the range reachable from finite positive IEEE singles and
doubles), extracted from the bounded check. -/
theorem cachedPower_props (e : Int) (h1 : -1137 ≤ e) (h2 : e ≤ 960) :
    0 ≤ CachedPowerIndex e ∧ CachedPowerIndex e < 79 ∧
    9223372036854775808 ≤ (GetCachedPowerForBinaryExponent e).f ∧
    (GetCachedPowerForBinaryExponent e).f < 18446744073709551616 ∧
    kAlpha ≤ (GetCachedPowerForBinaryExponent e).e + e + 64 ∧
    (GetCachedPowerForBinaryExponent e).e + e + 64 ≤ -34 ∧
    ((GetCachedPowerForBinaryExponent e).f - 1) /
        2^(-((GetCachedPowerForBinaryExponent e).e + e + 64)).toNat ≤ 798336123 := by
  have hi : (e + 1137).toNat < 2098 := by omega
  have hc := cachedPowerCheckBelow_spec 2098 cachedPowerCheck_all _ hi
  have he : (-1137 + (((e + 1137).toNat : Nat) : Int)) = e := by omega
  simp only [CachedPowerCheckAt, he, Bool.and_eq_true, decide_eq_true_eq] at hc
  exact ⟨hc.1.1.1.1.1.1, hc.1.1.1.1.1.2, hc.1.1.1.1.2, hc.1.1.1.2, hc.1.1.2, hc.1.2, hc.2⟩

/-- **C3 counterexample.**  At the concrete binary exponent `e = -51`
(reachable from doubles), the `k` the code computes (truncating division,
`k = -3`) differs from the claimed formula `⌊f * 78913 / 2^18⌋ + (1 if f > 0)`
(floor division, `k = -4`); moreover the index derived from the claimed
formula would select a cached power violating the asserted window
`kAlpha ≤ c.e + e + 64`. -/
theorem cachedPowerK_not_floor :
    CachedPowerK (-51) ≠ CachedPowerKSpecFloor (-51) ∧
    (GetCachedPowerForBinaryExponentSpecFloor (-51)).e + (-51) + 64 < kAlpha := by
  constructor
  · decide
  · decide

/-- **C3 (amended).**  For every binary exponent `e` in `[-1137, 960]`,
`GetCachedPowerForBinaryExponent e` computes
`k = (f * 78913) / 2^18 + (1 if f > 0 else 0)` with `f = kAlpha - e - 1` and
`/` the C truncating (toward zero) integer division — not the floor of the
real quotient — the derived table index satisfies `0 ≤ index < 79`, and the
returned cached power `c` satisfies `kAlpha ≤ c.e + e + 64 ≤ kGamma`. -/
theorem cachedPowerForBinaryExponent_props (e : Int) (h1 : -1137 ≤ e) (h2 : e ≤ 960) :
    CachedPowerK e =
      Int.tdiv ((kAlpha - e - 1) * 78913) (2^18) + (if 0 < kAlpha - e - 1 then 1 else 0) ∧
    0 ≤ CachedPowerIndex e ∧ CachedPowerIndex e < 79 ∧
    kAlpha ≤ (GetCachedPowerForBinaryExponent e).e + e + 64 ∧
    (GetCachedPowerForBinaryExponent e).e + e + 64 ≤ kGamma := by
  obtain ⟨p1, p2, _, _, p5, p6, _⟩ := cachedPower_props e h1 h2
  exact ⟨rfl, p1, p2, p5, by rw [kGamma]; omega⟩

/-- Witness for `cachedPowerForBinaryExponent_props` at `e = 0`. -/
theorem cachedPowerForBinaryExponent_props_witness :
    (-1137 : Int) ≤ 0 ∧ (0 : Int) ≤ 960 ∧
    (CachedPowerK 0 =
      Int.tdiv ((kAlpha - 0 - 1) * 78913) (2^18) + (if 0 < kAlpha - 0 - 1 then 1 else 0) ∧
    0 ≤ CachedPowerIndex 0 ∧ CachedPowerIndex 0 < 79 ∧
    kAlpha ≤ (GetCachedPowerForBinaryExponent 0).e + 0 + 64 ∧
    (GetCachedPowerForBinaryExponent 0).e + 0 + 64 ≤ kGamma) :=
  ⟨by decide, by decide, cachedPowerForBinaryExponent_props 0 (by decide) (by decide)⟩


/-- The exact rational value `f * 2^e` represented by a `DiyFp`. -/
def DiyFp.val (x : DiyFp) : ℚ := (x.f : ℚ) * (2:ℚ)^x.e

theorem DiyFp.val_shift (f : Nat) (e : Int) (d : Nat) :
    DiyFp.val ⟨f * 2^d, e - d⟩ = DiyFp.val ⟨f, e⟩ := by
  simp only [DiyFp.val]
  push_cast
  rw [zpow_sub₀ (by norm_num : (2:ℚ) ≠ 0), zpow_natCast]
  have h2 : ((2:ℚ)^d) ≠ 0 := by positivity
  field_simp
  ring

/-- Basic facts about the decoded significand: it is nonzero and below
`2^prec` for every nonzero bit pattern. -/
theorem decodeDiyFp_f_facts (prec bias bits : Nat)
    (hp1 : 2 ≤ prec) (hb : bits ≠ 0) :
    (DecodeDiyFp prec bias bits).f ≠ 0 ∧ (DecodeDiyFp prec bias bits).f < 2^prec := by
  have hhidpos : (0:Nat) < 2^(prec - 1) := Nat.pow_pos (by norm_num)
  have hFlt : bits % 2^(prec - 1) < 2^(prec - 1) := Nat.mod_lt bits hhidpos
  have hsum : (2:Nat)^prec = 2^(prec - 1) + 2^(prec - 1) := by
    have h1 : (2:Nat)^prec = 2 * 2^(prec - 1) := by
      conv_lhs => rw [show prec = (prec - 1) + 1 by omega]
      rw [Nat.pow_succ']
    omega
  simp only [DecodeDiyFp]
  by_cases h0 : bits / 2^(prec - 1) = 0
  · have hlt : bits < 2^(prec - 1) := by
      by_contra hge
      push_neg at hge
      have := Nat.div_pos hge hhidpos
      omega
    have hmod : bits % 2^(prec - 1) = bits := Nat.mod_eq_of_lt hlt
    rw [if_pos h0]
    refine ⟨?_, ?_⟩
    · show bits % 2^(prec - 1) ≠ 0
      omega
    · show bits % 2^(prec - 1) < 2^prec
      omega
  · rw [if_neg h0]
    refine ⟨?_, ?_⟩
    · show bits % 2^(prec - 1) + 2^(prec - 1) ≠ 0
      omega
    · show bits % 2^(prec - 1) + 2^(prec - 1) < 2^prec
      omega

/-- Closed form of `ComputeBoundaries`: for any nonzero bit pattern, the three
returned `DiyFp`s are exactly the decoded significand and the two midpoint
significands, each shifted left so that all three share the exponent
`ve - lz`, where `lz = 63 - log2 vf` is the normalization shift of `v`. -/
theorem computeBoundaries_closed (prec bias bits : Nat)
    (hp1 : 2 ≤ prec) (hp2 : prec ≤ 62) (hb : bits ≠ 0) :
    ComputeBoundaries prec bias bits =
      ⟨⟨(DecodeDiyFp prec bias bits).f * 2^(63 - Nat.log2 (DecodeDiyFp prec bias bits).f),
        (DecodeDiyFp prec bias bits).e - (63 - Nat.log2 (DecodeDiyFp prec bias bits).f : Nat)⟩,
       (if bits % 2^(prec - 1) = 0 ∧ 1 < bits / 2^(prec - 1) then
          ⟨(4 * (DecodeDiyFp prec bias bits).f - 1) *
              2^(63 - Nat.log2 (DecodeDiyFp prec bias bits).f - 2),
            (DecodeDiyFp prec bias bits).e - (63 - Nat.log2 (DecodeDiyFp prec bias bits).f : Nat)⟩
        else
          ⟨(2 * (DecodeDiyFp prec bias bits).f - 1) *
              2^(63 - Nat.log2 (DecodeDiyFp prec bias bits).f - 1),
            (DecodeDiyFp prec bias bits).e - (63 - Nat.log2 (DecodeDiyFp prec bias bits).f : Nat)⟩),
       ⟨(2 * (DecodeDiyFp prec bias bits).f + 1) *
           2^(63 - Nat.log2 (DecodeDiyFp prec bias bits).f - 1),
         (DecodeDiyFp prec bias bits).e - (63 - Nat.log2 (DecodeDiyFp prec bias bits).f : Nat)⟩⟩ := by
  obtain ⟨hvf_ne, hvf_lt⟩ := decodeDiyFp_f_facts prec bias bits hp1 hb
  set v := DecodeDiyFp prec bias bits with hv
  set lg := Nat.log2 v.f with hlg
  have hlg_le : lg ≤ prec - 1 := by
    have := (Nat.log2_lt hvf_ne).mpr hvf_lt
    omega
  have hlg61 : lg ≤ 61 := by omega
  have hvf_ge : 2^lg ≤ v.f := Nat.log2_self_le hvf_ne
  have hvf_lt2 : v.f < 2^(lg + 1) := Nat.lt_log2_self
  set lz := 63 - lg with hlz
  have hlz2 : 2 ≤ lz := by omega
  have hlz63 : lz ≤ 63 := by omega
  have hpow1 : (2:Nat)^(lg + 1) = 2 * 2^lg := by rw [Nat.pow_add]; ring
  have hpow2 : (2:Nat)^(lg + 2) = 4 * 2^lg := by rw [Nat.pow_add]; ring
  have hpow3 : (2:Nat)^(lg + 3) = 8 * 2^lg := by rw [Nat.pow_add]; ring
  have hw_no : v.f * 2^lz < 18446744073709551616 := by
    have h1 : v.f * 2^lz < 2^(lg + 1) * 2^lz :=
      (Nat.mul_lt_mul_right (Nat.pow_pos (by norm_num))).mpr hvf_lt2
    have h2 : (2:Nat)^(lg + 1) * 2^lz ≤ 2^64 := by
      rw [← Nat.pow_add]
      exact Nat.pow_le_pow_right (by omega) (by omega)
    have h64 : (2:Nat)^64 = 18446744073709551616 := by norm_num
    omega
  have hmp_small : 2 * v.f + 1 < 18446744073709551616 := by
    have h1 : (2:Nat)^(lg + 1) ≤ 2^62 := Nat.pow_le_pow_right (by omega) (by omega)
    have h62 : (2:Nat)^62 = 4611686018427387904 := by norm_num
    omega
  have hmp_no : (2 * v.f + 1) * 2^(lz - 1) < 18446744073709551616 := by
    have h1 : (2 * v.f + 1) * 2^(lz - 1) < 2^(lg + 2) * 2^(lz - 1) :=
      (Nat.mul_lt_mul_right (Nat.pow_pos (by norm_num))).mpr (by omega)
    have h2 : (2:Nat)^(lg + 2) * 2^(lz - 1) ≤ 2^64 := by
      rw [← Nat.pow_add]
      exact Nat.pow_le_pow_right (by omega) (by omega)
    have h64 : (2:Nat)^64 = 18446744073709551616 := by norm_num
    omega
  have hmmA_small : 2 * v.f - 1 < 18446744073709551616 := by omega
  have hmmA_no : (2 * v.f - 1) * 2^(lz - 1) < 18446744073709551616 := by
    have h1 : (2 * v.f - 1) * 2^(lz - 1) ≤ (2 * v.f + 1) * 2^(lz - 1) :=
      Nat.mul_le_mul (by omega) (le_refl _)
    omega
  have hmmB_small : 4 * v.f - 1 < 18446744073709551616 := by
    have h1 : (2:Nat)^(lg + 1) ≤ 2^62 := Nat.pow_le_pow_right (by omega) (by omega)
    have h62 : (2:Nat)^62 = 4611686018427387904 := by norm_num
    omega
  have hmmB_no : (4 * v.f - 1) * 2^(lz - 2) < 18446744073709551616 := by
    have h1 : (4 * v.f - 1) * 2^(lz - 2) < 2^(lg + 3) * 2^(lz - 2) :=
      (Nat.mul_lt_mul_right (Nat.pow_pos (by norm_num))).mpr (by omega)
    have h2 : (2:Nat)^(lg + 3) * 2^(lz - 2) ≤ 2^64 := by
      rw [← Nat.pow_add]
      exact Nat.pow_le_pow_right (by omega) (by omega)
    have h64 : (2:Nat)^64 = 18446744073709551616 := by norm_num
    omega
  have hvf64 : v.f < 2^64 :=
    lt_of_lt_of_le hvf_lt (Nat.pow_le_pow_right (by norm_num) (by omega))
  have hnorm : Normalize v = ⟨v.f * 2^lz, v.e - (lz : Nat)⟩ := by
    rw [Normalize]
    simp only [floorLog2_eq_log2 64 v.f hvf64, ← hlg, ← hlz, u64]
    rw [Nat.mod_eq_of_lt hw_no]
  simp only [ComputeBoundaries, ← hv, hnorm]
  by_cases hlow : bits % 2^(prec - 1) = 0 ∧ 1 < bits / 2^(prec - 1)
  · rw [if_pos hlow, if_pos hlow]
    simp only [NormalizeTo, u64]
    have hd1 : ((v.e - 1) - (v.e - (lz : Nat))).toNat = lz - 1 := by omega
    have hd2 : ((v.e - 2) - (v.e - (lz : Nat))).toNat = lz - 2 := by omega
    rw [Nat.mod_eq_of_lt hmp_small, Nat.mod_eq_of_lt hmmB_small, hd1]
    rw [Nat.mod_eq_of_lt hmp_no, hd2]
    rw [Nat.mod_eq_of_lt hmmB_no]
  · rw [if_neg hlow, if_neg hlow]
    simp only [NormalizeTo, u64]
    have hd1 : ((v.e - 1) - (v.e - (lz : Nat))).toNat = lz - 1 := by omega
    rw [Nat.mod_eq_of_lt hmp_small, Nat.mod_eq_of_lt hmmA_small, hd1]
    rw [Nat.mod_eq_of_lt hmp_no]
    rw [Nat.mod_eq_of_lt hmmA_no]

/-- Consequences of the closed form: shared exponent, normalization bounds,
and exact midpoint values for the boundaries of any nonzero bit pattern. -/
theorem computeBoundaries_props (prec bias bits : Nat)
    (hp1 : 2 ≤ prec) (hp2 : prec ≤ 62) (hb : bits ≠ 0) :
    (ComputeBoundaries prec bias bits).v.e = (ComputeBoundaries prec bias bits).m_plus.e ∧
    (ComputeBoundaries prec bias bits).m_minus.e = (ComputeBoundaries prec bias bits).m_plus.e ∧
    9223372036854775808 ≤ (ComputeBoundaries prec bias bits).v.f ∧
    (ComputeBoundaries prec bias bits).v.f < 18446744073709551616 ∧
    9223372036854775808 ≤ (ComputeBoundaries prec bias bits).m_plus.f ∧
    (ComputeBoundaries prec bias bits).m_plus.f < 18446744073709551616 ∧
    4611686018427387904 ≤ (ComputeBoundaries prec bias bits).m_minus.f ∧
    (ComputeBoundaries prec bias bits).m_minus.f < 18446744073709551616 ∧
    (ComputeBoundaries prec bias bits).v.val = (DecodeDiyFp prec bias bits).val ∧
    (ComputeBoundaries prec bias bits).m_plus.val =
      (DecodeDiyFp prec bias bits).val + (2:ℚ)^((DecodeDiyFp prec bias bits).e - 1) ∧
    (ComputeBoundaries prec bias bits).m_minus.val =
      (if bits % 2^(prec - 1) = 0 ∧ 1 < bits / 2^(prec - 1) then
        (DecodeDiyFp prec bias bits).val - (2:ℚ)^((DecodeDiyFp prec bias bits).e - 2)
      else (DecodeDiyFp prec bias bits).val - (2:ℚ)^((DecodeDiyFp prec bias bits).e - 1)) := by
  obtain ⟨hvf_ne, hvf_lt⟩ := decodeDiyFp_f_facts prec bias bits hp1 hb
  rw [computeBoundaries_closed prec bias bits hp1 hp2 hb]
  set v := DecodeDiyFp prec bias bits with hv
  set lg := Nat.log2 v.f with hlg
  have hlg_le : lg ≤ prec - 1 := by
    have := (Nat.log2_lt hvf_ne).mpr hvf_lt
    omega
  have hlg61 : lg ≤ 61 := by omega
  have hvf_ge : 2^lg ≤ v.f := Nat.log2_self_le hvf_ne
  have hvf_lt2 : v.f < 2^(lg + 1) := Nat.lt_log2_self
  set lz := 63 - lg with hlz
  have hlz2 : 2 ≤ lz := by omega
  have hlz63 : lz ≤ 63 := by omega
  have hvfpos : 1 ≤ v.f := by omega
  -- lower bounds
  have hsplit1 : (2:Nat)^lg * 2^lz = 2^63 := by
    rw [← Nat.pow_add]
    congr 1
    omega
  have hsplit2 : (2:Nat)^lg * 2^(lz - 1) = 2^62 := by
    rw [← Nat.pow_add]
    congr 1
    omega
  have hsplit3 : (2:Nat)^(lg + 1) * 2^(lz - 2) = 2^62 := by
    rw [← Nat.pow_add]
    congr 1
    omega
  have hvlow : 2^63 ≤ v.f * 2^lz := by
    calc (2:Nat)^63 = 2^lg * 2^lz := hsplit1.symm
      _ ≤ v.f * 2^lz := Nat.mul_le_mul hvf_ge (le_refl _)
  have hn63 : (2:Nat)^63 = 9223372036854775808 := by norm_num
  have hn62 : (2:Nat)^62 = 4611686018427387904 := by norm_num
  -- upper bounds (no wrap), re-established as in the closed-form proof
  have hw_no : v.f * 2^lz < 18446744073709551616 := by
    have h1 : v.f * 2^lz < 2^(lg + 1) * 2^lz :=
      (Nat.mul_lt_mul_right (Nat.pow_pos (by norm_num))).mpr hvf_lt2
    have h2 : (2:Nat)^(lg + 1) * 2^lz ≤ 2^64 := by
      rw [← Nat.pow_add]
      exact Nat.pow_le_pow_right (by omega) (by omega)
    have h64 : (2:Nat)^64 = 18446744073709551616 := by norm_num
    omega
  have hmp_no : (2 * v.f + 1) * 2^(lz - 1) < 18446744073709551616 := by
    have h1 : (2 * v.f + 1) * 2^(lz - 1) < 2^(lg + 2) * 2^(lz - 1) := by
      apply (Nat.mul_lt_mul_right (Nat.pow_pos (by norm_num))).mpr
      have hpow2 : (2:Nat)^(lg + 2) = 4 * 2^lg := by rw [Nat.pow_add]; ring
      omega
    have h2 : (2:Nat)^(lg + 2) * 2^(lz - 1) ≤ 2^64 := by
      rw [← Nat.pow_add]
      exact Nat.pow_le_pow_right (by omega) (by omega)
    have h64 : (2:Nat)^64 = 18446744073709551616 := by norm_num
    omega
  have hmp_low : 9223372036854775808 ≤ (2 * v.f + 1) * 2^(lz - 1) := by
    have h1 : (2:Nat)^lg * 2^lz ≤ v.f * 2^lz := Nat.mul_le_mul hvf_ge (le_refl _)
    have h2 : v.f * 2^lz ≤ (2 * v.f + 1) * 2^(lz - 1) := by
      have hsp : (2:Nat)^lz = 2 * 2^(lz - 1) := by
        conv_lhs => rw [show lz = (lz - 1) + 1 by omega]
        rw [Nat.pow_succ']
      calc v.f * 2^lz = v.f * (2 * 2^(lz - 1)) := by rw [hsp]
        _ = (2 * v.f) * 2^(lz - 1) := by ring
        _ ≤ (2 * v.f + 1) * 2^(lz - 1) := Nat.mul_le_mul (by omega) (le_refl _)
    omega
  -- value-preservation pieces
  have hzero2 : (2:ℚ) ≠ 0 := by norm_num
  have hvval : DiyFp.val ⟨v.f * 2^lz, v.e - (lz : Nat)⟩ = v.val := by
    rw [DiyFp.val_shift]
  have hmpval : DiyFp.val ⟨(2 * v.f + 1) * 2^(lz - 1), v.e - (lz : Nat)⟩ =
      v.val + (2:ℚ)^(v.e - 1) := by
    have he : v.e - (lz : Nat) = (v.e - 1) - ((lz - 1 : Nat) : Int) := by omega
    rw [he, DiyFp.val_shift (2 * v.f + 1) (v.e - 1) (lz - 1)]
    simp only [DiyFp.val]
    push_cast
    rw [zpow_sub₀ hzero2]
    have h1 : ((2:ℚ)^v.e) ≠ 0 := zpow_ne_zero _ hzero2
    field_simp
    ring
  constructor
  · -- v.e equality: both sides are v.e - lz
    rfl
  refine ⟨?_, ?_, ?_, ?_, ?_, ?_, ?_, hvval, hmpval, ?_⟩
  · by_cases hlow : bits % 2^(prec - 1) = 0 ∧ 1 < bits / 2^(prec - 1)
    · rw [if_pos hlow]
    · rw [if_neg hlow]
  · rw [hn63] at hvlow
    exact hvlow
  · exact hw_no
  · exact hmp_low
  · exact hmp_no
  · -- m_minus lower bound 2^62
    by_cases hlow : bits % 2^(prec - 1) = 0 ∧ 1 < bits / 2^(prec - 1)
    · rw [if_pos hlow]
      show 4611686018427387904 ≤ (4 * v.f - 1) * 2^(lz - 2)
      have h1 : (2:Nat)^(lg + 1) * 2^(lz - 2) ≤ (4 * v.f - 1) * 2^(lz - 2) := by
        apply Nat.mul_le_mul _ (le_refl _)
        have hpow1 : (2:Nat)^(lg + 1) = 2 * 2^lg := by rw [Nat.pow_add]; ring
        omega
      omega
    · rw [if_neg hlow]
      show 4611686018427387904 ≤ (2 * v.f - 1) * 2^(lz - 1)
      have h1 : (2:Nat)^lg * 2^(lz - 1) ≤ (2 * v.f - 1) * 2^(lz - 1) := by
        apply Nat.mul_le_mul _ (le_refl _)
        omega
      omega
  · -- m_minus upper bound 2^64
    by_cases hlow : bits % 2^(prec - 1) = 0 ∧ 1 < bits / 2^(prec - 1)
    · rw [if_pos hlow]
      show (4 * v.f - 1) * 2^(lz - 2) < 18446744073709551616
      have h1 : (4 * v.f - 1) * 2^(lz - 2) < 2^(lg + 3) * 2^(lz - 2) := by
        apply (Nat.mul_lt_mul_right (Nat.pow_pos (by norm_num))).mpr
        have hpow3 : (2:Nat)^(lg + 3) = 8 * 2^lg := by rw [Nat.pow_add]; ring
        omega
      have h2 : (2:Nat)^(lg + 3) * 2^(lz - 2) ≤ 2^64 := by
        rw [← Nat.pow_add]
        exact Nat.pow_le_pow_right (by omega) (by omega)
      have h64 : (2:Nat)^64 = 18446744073709551616 := by norm_num
      omega
    · rw [if_neg hlow]
      show (2 * v.f - 1) * 2^(lz - 1) < 18446744073709551616
      have h1 : (2 * v.f - 1) * 2^(lz - 1) ≤ (2 * v.f + 1) * 2^(lz - 1) :=
        Nat.mul_le_mul (by omega) (le_refl _)
      omega
  · -- m_minus value
    by_cases hlow : bits % 2^(prec - 1) = 0 ∧ 1 < bits / 2^(prec - 1)
    · rw [if_pos hlow, if_pos hlow]
      show DiyFp.val ⟨(4 * v.f - 1) * 2^(lz - 2), v.e - (lz : Nat)⟩ =
        v.val - (2:ℚ)^(v.e - 2)
      have he : v.e - (lz : Nat) = (v.e - 2) - ((lz - 2 : Nat) : Int) := by omega
      rw [he, DiyFp.val_shift (4 * v.f - 1) (v.e - 2) (lz - 2)]
      simp only [DiyFp.val]
      rw [Nat.cast_sub (by omega : 1 ≤ 4 * v.f)]
      push_cast
      rw [zpow_sub₀ hzero2]
      have h1 : ((2:ℚ)^v.e) ≠ 0 := zpow_ne_zero _ hzero2
      field_simp
      ring
    · rw [if_neg hlow, if_neg hlow]
      show DiyFp.val ⟨(2 * v.f - 1) * 2^(lz - 1), v.e - (lz : Nat)⟩ =
        v.val - (2:ℚ)^(v.e - 1)
      have he : v.e - (lz : Nat) = (v.e - 1) - ((lz - 1 : Nat) : Int) := by omega
      rw [he, DiyFp.val_shift (2 * v.f - 1) (v.e - 1) (lz - 1)]
      simp only [DiyFp.val]
      rw [Nat.cast_sub (by omega : 1 ≤ 2 * v.f)]
      push_cast
      rw [zpow_sub₀ hzero2]
      have h1 : ((2:ℚ)^v.e) ≠ 0 := zpow_ne_zero _ hzero2
      field_simp
      ring

/-- The (amended) boundary specification for one IEEE format: all three
returned `DiyFp`s share the exponent `m_plus.e`; `w` and `w+` are normalized
(significand in `[2^63, 2^64)`); `w-` has significand in `[2^62, 2^64)` —
unlike the original claim, `w-` is *not* always normalized; `w` carries the
input value; `w+` is the midpoint to the successor (`v + 2^(v.e-1)`); and
`w-` is the midpoint computed by the lower-boundary-is-closer formula
(subtracting `2^(v.e-2)`) exactly when the raw fraction field is zero and the
biased exponent exceeds 1. -/
def BoundariesSpec (prec bias bits : Nat) : Prop :=
  (ComputeBoundaries prec bias bits).v.e = (ComputeBoundaries prec bias bits).m_plus.e ∧
  (ComputeBoundaries prec bias bits).m_minus.e = (ComputeBoundaries prec bias bits).m_plus.e ∧
  9223372036854775808 ≤ (ComputeBoundaries prec bias bits).v.f ∧
  (ComputeBoundaries prec bias bits).v.f < 18446744073709551616 ∧
  9223372036854775808 ≤ (ComputeBoundaries prec bias bits).m_plus.f ∧
  (ComputeBoundaries prec bias bits).m_plus.f < 18446744073709551616 ∧
  4611686018427387904 ≤ (ComputeBoundaries prec bias bits).m_minus.f ∧
  (ComputeBoundaries prec bias bits).m_minus.f < 18446744073709551616 ∧
  (ComputeBoundaries prec bias bits).v.val = (DecodeDiyFp prec bias bits).val ∧
  (ComputeBoundaries prec bias bits).m_plus.val =
    (DecodeDiyFp prec bias bits).val + (2:ℚ)^((DecodeDiyFp prec bias bits).e - 1) ∧
  (ComputeBoundaries prec bias bits).m_minus.val =
    (if bits % 2^(prec - 1) = 0 ∧ 1 < bits / 2^(prec - 1) then
      (DecodeDiyFp prec bias bits).val - (2:ℚ)^((DecodeDiyFp prec bias bits).e - 2)
    else (DecodeDiyFp prec bias bits).val - (2:ℚ)^((DecodeDiyFp prec bias bits).e - 1))

/-- **C4 counterexample.**  For the finite strictly positive double `1.0`
(bit pattern `0x3FF0000000000000`), the returned `w-` is *not* normalized:
its significand is `2^63 - 2^9 < 2^63`.  So the claim that all three returned
`DiyFp`s are normalized is false on the code. -/
theorem computeBoundaries_m_minus_not_normalized :
    (4607182418800017408 : Nat) ≠ 0 ∧
    4607182418800017408 / 2^52 < 2047 ∧ (4607182418800017408 : Nat) < 2^63 ∧
    (ComputeBoundaries 53 1075 4607182418800017408).m_minus.f = 9223372036854775296 ∧
    (ComputeBoundaries 53 1075 4607182418800017408).m_minus.f < 9223372036854775808 :=
  ⟨by decide, by decide, by decide, by decide, by decide⟩

/-- **C4 (amended).**  For every finite, strictly positive IEEE double
(resp. single) bit pattern, `ComputeBoundaries` returns a triple
`(w, w-, w+)` in which `w` and `w+` are normalized, `w-` has significand at
least `2^62` (but not always `2^63`), all three share the common exponent
`w+.e`, `w` represents the input value, `w+` the midpoint to the successor,
and `w-` the midpoint to the predecessor computed with the
lower-boundary-is-closer formula `(4 v.f - 1, v.e - 2)` exactly when the raw
fraction field is zero and the biased exponent exceeds 1. -/
theorem computeBoundaries_correct (dbits sbits : Nat)
    (hd0 : dbits ≠ 0) (hdfin : dbits / 2^52 < 2047) (hdpos : dbits < 2^63)
    (hs0 : sbits ≠ 0) (hsfin : sbits / 2^23 < 255) (hspos : sbits < 2^31) :
    BoundariesSpec 53 1075 dbits ∧ BoundariesSpec 24 150 sbits := by
  constructor
  · exact computeBoundaries_props 53 1075 dbits (by norm_num) (by norm_num) hd0
  · exact computeBoundaries_props 24 150 sbits (by norm_num) (by norm_num) hs0

/-- Witness for `computeBoundaries_correct` at the doubles/singles `1.5`. -/
theorem computeBoundaries_correct_witness :
    (4609434218613702656 : Nat) ≠ 0 ∧
    4609434218613702656 / 2^52 < 2047 ∧ (4609434218613702656 : Nat) < 2^63 ∧
    (1069547520 : Nat) ≠ 0 ∧ 1069547520 / 2^23 < 255 ∧ (1069547520 : Nat) < 2^31 ∧
    (BoundariesSpec 53 1075 4609434218613702656 ∧ BoundariesSpec 24 150 1069547520) :=
  ⟨by decide, by decide, by decide, by decide, by decide, by decide,
   computeBoundaries_correct 4609434218613702656 1069547520
     (by decide) (by decide) (by decide) (by decide) (by decide) (by decide)⟩

/-- `Utoa100`: the two decimal characters for `digits < 100` looked up in the
`kDigits100` pair table, as digit values (tens digit, then ones digit). -/
def Utoa100 (digits : Nat) : List Nat := [digits / 10, digits % 10]

/-- Label `L_1_digit` of `GenerateIntegralDigits`. -/
def GenDigits1 (n : Nat) : List Nat := [n]

/-- Label `L_2_digits`. -/
def GenDigits2 (n : Nat) : List Nat := Utoa100 n

/-- Label `L_3_digits` (falls through to `L_1_digit`). -/
def GenDigits3 (n : Nat) : List Nat := Utoa100 (n / 10) ++ GenDigits1 (n % 10)

/-- Label `L_4_digits` (falls through to `L_2_digits`). -/
def GenDigits4 (n : Nat) : List Nat := Utoa100 (n / 100) ++ GenDigits2 (n % 100)

/-- Label `L_5_digits`. -/
def GenDigits5 (n : Nat) : List Nat := Utoa100 (n / 1000) ++ GenDigits3 (n % 1000)

/-- Label `L_6_digits`. -/
def GenDigits6 (n : Nat) : List Nat := Utoa100 (n / 10000) ++ GenDigits4 (n % 10000)

/-- Label `L_7_digits`. -/
def GenDigits7 (n : Nat) : List Nat := Utoa100 (n / 100000) ++ GenDigits5 (n % 100000)

/-- Label `L_8_digits`. -/
def GenDigits8 (n : Nat) : List Nat := Utoa100 (n / 1000000) ++ GenDigits6 (n % 1000000)

/-- Label `L_9_digits`. -/
def GenDigits9 (n : Nat) : List Nat := Utoa100 (n / 10000000) ++ GenDigits7 (n % 10000000)

/-- `GenerateIntegralDigits`: the computed-goto digit cascade of the source,
expressed as the equivalent chain of threshold tests.  PRE: `n ≤ 798336123`. -/
def GenerateIntegralDigits (n : Nat) : List Nat :=
  if 100000000 ≤ n then GenDigits9 n
  else if 10000000 ≤ n then GenDigits8 n
  else if 1000000 ≤ n then GenDigits7 n
  else if 100000 ≤ n then GenDigits6 n
  else if 10000 ≤ n then GenDigits5 n
  else if 1000 ≤ n then GenDigits4 n
  else if 100 ≤ n then GenDigits3 n
  else if 10 ≤ n then GenDigits2 n
  else GenDigits1 n

/-- State returned by the fractional-digit loop of `Grisu2DigitGen`. -/
structure FracResult where
  digits : List Nat
  m : Nat
  rest : Nat
  delta : Nat
  distance : Nat
  exited : Bool
  assertsOk : Bool
deriving DecidableEq, Repr

/-- The fractional-digit loop of `Grisu2DigitGen` (the case `p2 > delta`),
with an explicit fuel bound.  `assertsOk` records the source's
`assert(p2 <= UINT64_MAX / 10)` evaluated at each loop top, immediately
before `p2 *= 10`; `exited` records whether the loop stopped by its own exit
test (`p2 <= delta` after the updates) rather than by fuel exhaustion. -/
def Grisu2FracLoop (oneF : Nat) (p2 delta dist : Nat) : Nat → FracResult
  | 0 => ⟨[], 0, p2, delta, dist, false, true⟩
  | fuel+1 =>
    let ok0 := decide (p2 ≤ 1844674407370955161)
    let p2a := u64 (p2 * 10)
    let d := p2a / oneF
    let r := p2a % oneF
    let delta1 := u64 (delta * 10)
    let dist1 := u64 (dist * 10)
    if r ≤ delta1 then ⟨[d], 1, r, delta1, dist1, true, ok0⟩
    else
      let t := Grisu2FracLoop oneF r delta1 dist1 fuel
      ⟨d :: t.digits, t.m + 1, t.rest, t.delta, t.distance, t.exited, ok0 && t.assertsOk⟩

/-- The digit-trimming loop of `Grisu2DigitGen` (the case `p2 <= delta`),
with an explicit fuel bound.  Returns `(length, n, rest, ten_kappa)`. -/
def Grisu2TrimLoop (buffer : List Nat) (k : Nat) (delta : Nat) (rest tenKappa : Nat)
    (n : Nat) : Nat → Nat × Nat × Nat × Nat
  | 0 => (k - n, n, rest, tenKappa)
  | fuel+1 =>
    let dn := buffer.getD (k - 1 - n) 0
    let rn := u64 (dn * tenKappa + rest)
    if delta < rn then (k - n, n, rest, tenKappa)
    else Grisu2TrimLoop buffer k delta rn (u64 (tenKappa * 10)) (n + 1) fuel

/-- The decrement loop of `Grisu2Round` in C `uint64_t` semantics
(`usub64`/`uadd64` wrap around), with the source's `assert(digit != 0)`
recorded in the returned flag: the flag is `true` iff the assertion held at
every execution of the loop body. -/
def Grisu2RoundLoop (dist delta tenKappa : Nat) (digit : Int) (rest : Nat) :
    Nat → Int × Nat × Bool
  | 0 => (digit, rest, true)
  | fuel+1 =>
    if rest < dist ∧ tenKappa ≤ usub64 delta rest ∧
        (uadd64 rest tenKappa ≤ dist ∨
          usub64 (uadd64 rest tenKappa) dist < usub64 dist rest) then
      let t := Grisu2RoundLoop dist delta tenKappa (digit - 1) (uadd64 rest tenKappa) fuel
      (t.1, t.2.1, t.2.2 && decide (digit ≠ 0))
    else (digit, rest, true)

/-- The same decrement loop with exact (unbounded) integer arithmetic: the
specification's reading of the three stopping conditions, in which no
subtraction or addition wraps around. -/
def Grisu2RoundLoopExact (dist delta tenKappa : Int) (digit : Int) (rest : Int) :
    Nat → Int × Int
  | 0 => (digit, rest)
  | fuel+1 =>
    if rest < dist ∧ tenKappa ≤ delta - rest ∧
        (rest + tenKappa ≤ dist ∨ rest + tenKappa - dist < dist - rest) then
      Grisu2RoundLoopExact dist delta tenKappa (digit - 1) (rest + tenKappa) fuel
    else (digit, rest)

/-- `Grisu2Round` from the source: read the last digit, run the decrement
loop, and write the resulting digit back at position `length - 1`. -/
def Grisu2Round (buffer : List Nat) (length : Nat) (dist delta rest tenKappa : Nat) :
    List Nat :=
  let digit : Int := buffer.getD (length - 1) 0
  let t := Grisu2RoundLoop dist delta tenKappa digit rest 16
  buffer.set (length - 1) t.1.toNat

/-- Everything `Grisu2DigitGen` computes before its final call to
`Grisu2Round`: the digit buffer, digit count and decimal exponent, together
with the four scalar arguments handed to `Grisu2Round`. -/
structure DigitGenCall where
  buffer : List Nat
  length : Nat
  exponent : Int
  distance : Nat
  delta : Nat
  rest : Nat
  tenKappa : Nat
deriving DecidableEq, Repr

/-- The body of `Grisu2DigitGen` up to (but excluding) its final call to
`Grisu2Round`.  `one.f = 2^(-e)`; `p1 = H.f div 2^(-e)` truncated to
`uint32_t`; `p2 = H.f & (one.f - 1) = H.f mod one.f` (`one.f` is a power of
two). -/
def Grisu2DigitGenPre (L w H : DiyFp) : DigitGenCall :=
  let dist := (Subtract H w).f
  let delta := (Subtract H L).f
  let s := (-H.e).toNat
  let one : DiyFp := ⟨u64 (2^s), H.e⟩
  let p1 := (H.f / 2^s) % 4294967296
  let p2 := H.f % one.f
  let ids := GenerateIntegralDigits p1
  let k := ids.length
  if delta < p2 then
    let t := Grisu2FracLoop one.f p2 delta dist 64
    ⟨ids ++ t.digits, k + t.m, -(t.m : Int), t.distance, t.delta, t.rest, one.f⟩
  else
    let t := Grisu2TrimLoop ids k delta p2 one.f 0 32
    ⟨ids, t.1, (t.2.1 : Int), dist, delta, t.2.2.1, t.2.2.2⟩

/-- `Grisu2DigitGen` from the source: digit generation followed by the final
rounding step.  Returns `(buffer, length, exponent)`. -/
def Grisu2DigitGen (L w H : DiyFp) : List Nat × Nat × Int :=
  let c := Grisu2DigitGenPre L w H
  (Grisu2Round c.buffer c.length c.distance c.delta c.rest c.tenKappa, c.length, c.exponent)

/-- The scaling prologue of the three-argument `Grisu2` overload: multiply
the boundaries by the cached power selected for `v.e` and tighten the
interval by one ulp on each side.  Returns `(L, w, H)`. -/
def Grisu2Scaled (m_minus v m_plus : DiyFp) : DiyFp × DiyFp × DiyFp :=
  let cached := GetCachedPowerForBinaryExponent v.e
  let c_minus_k : DiyFp := ⟨cached.f, cached.e⟩
  let w := Multiply v c_minus_k
  let w_minus := Multiply m_minus c_minus_k
  let w_plus := Multiply m_plus c_minus_k
  (⟨u64 (w_minus.f + 1), w_minus.e⟩, w, ⟨w_plus.f - 1, w_plus.e⟩)

/-- The three-argument `Grisu2` overload of the source: scale the boundaries
by the cached power, tighten by one ulp on each side, generate digits, and
add the decimal exponent of the cached power. -/
def Grisu2Core (m_minus v m_plus : DiyFp) : List Nat × Nat × Int :=
  let cached := GetCachedPowerForBinaryExponent v.e
  let s := Grisu2Scaled m_minus v m_plus
  let r := Grisu2DigitGen s.1 s.2.1 s.2.2
  (r.1, r.2.1, r.2.2 + -cached.k)

/-- The one-argument `Grisu2` overload: compute the boundaries of the bit
pattern and run the core. -/
def Grisu2Bits (prec bias : Nat) (bits : Nat) : List Nat × Nat × Int :=
  let b := ComputeBoundaries prec bias bits
  Grisu2Core b.m_minus b.v b.m_plus

def kDtoaPositiveMaxLength : Nat := 24

/-- `Itoa1000`: a sign character followed by one to three decimal digits.
PRE: `-1000 < value < 1000`. -/
def Itoa1000 (value : Int) : List Char :=
  let sc := if value < 0 then '-' else '+'
  let k := value.natAbs
  sc :: (if k < 10 then [Char.ofNat (48 + k)]
    else if k < 100 then [Char.ofNat (48 + k / 10), Char.ofNat (48 + k % 10)]
    else [Char.ofNat (48 + k / 100), Char.ofNat (48 + k / 10 % 10), Char.ofNat (48 + k % 10)])

/-- `FormatFixed` from the source, on a digit-character list. -/
def FormatFixed (digits : List Char) (decimalPoint : Int) (forceTrailingDotZero : Bool) :
    List Char :=
  if (digits.length : Int) ≤ decimalPoint then
    digits ++ List.replicate (decimalPoint - digits.length).toNat '0' ++
      (if forceTrailingDotZero then ['.', '0'] else [])
  else if 0 < decimalPoint then
    digits.take decimalPoint.toNat ++ '.' :: digits.drop decimalPoint.toNat
  else
    '0' :: '.' :: (List.replicate (-decimalPoint).toNat '0' ++ digits)

/-- `FormatExponential` from the source. -/
def FormatExponential (digits : List Char) (decimalPoint : Int) : List Char :=
  (match digits with
    | [] => []
    | [d] => [d]
    | d :: ds => d :: '.' :: ds) ++ 'e' :: Itoa1000 (decimalPoint - 1)

/-- The fixed-vs-scientific decision of `DtoaPositive`:
`use_fixed = (kMinExp < decimal_point) && (value <= kMaxVal)` with
`kMinExp = -6` and `kMaxVal = 2^p`.  `2^p` is exactly representable in the
format, so the C comparison of the input with `kMaxVal` is exact and is
modelled by the exact comparison of rationals. -/
def DtoaPositiveUseFixed (decimalPoint : Int) (value kMaxVal : ℚ) : Bool :=
  decide (-6 < decimalPoint) && decide (value ≤ kMaxVal)

/-- `DtoaPositive` from the source: run `Grisu2`, then format the digit
sequence in fixed or exponential notation.  PRE: `bits` is a finite strictly
positive bit pattern. -/
def DtoaPositive (prec bias : Nat) (bits : Nat) (forceTrailingDotZero : Bool) :
    List Char :=
  let r := Grisu2Bits prec bias bits
  let digits := (r.1.take r.2.1).map (fun d => Char.ofNat (48 + d))
  let decimalPoint : Int := (r.2.1 : Int) + r.2.2
  if DtoaPositiveUseFixed decimalPoint (DecodeDiyFp prec bias bits).val ((2:ℚ)^prec) then
    FormatFixed digits decimalPoint forceTrailingDotZero
  else FormatExponential digits decimalPoint

/-- The `Dtoa` wrapper of the source for doubles, on the raw 64-bit pattern:
NaN first, then sign (emitting the `-` and continuing with the magnitude),
then infinity, then zero, then `DtoaPositive`. -/
def Dtoa64 (bits : Nat) (forceTrailingDotZero : Bool) (nanString infString : List Char) :
    List Char :=
  if (bits / 2^52) % 2^11 = 2047 ∧ bits % 2^52 ≠ 0 then nanString
  else
    let signbit := 2^63 ≤ bits
    let m := bits % 2^63
    let sign : List Char := if signbit then ['-'] else []
    if m = 2047 * 2^52 then sign ++ infString
    else if m = 0 then sign ++ '0' :: (if forceTrailingDotZero then ['.', '0'] else [])
    else sign ++ DtoaPositive 53 1075 m forceTrailingDotZero

/-- **C5.** The driver emits exponential notation if and only if
`decimal_point ≤ -6` or `value > 2^p`, where `decimal_point = length +
exponent` from the Grisu2 result and `p` is the significand width (53 for
double, 24 for single): the `use_fixed` test of `DtoaPositive` is false
exactly in that case. -/
theorem dtoaPositive_format_choice (length : Nat) (exponent : Int) (value : ℚ) (p : Nat) :
    DtoaPositiveUseFixed ((length : Int) + exponent) value ((2:ℚ)^p) = false ↔
      ((length : Int) + exponent ≤ -6 ∨ (2:ℚ)^p < value) := by
  rw [DtoaPositiveUseFixed]
  constructor
  · intro h
    by_contra hc
    push_neg at hc
    obtain ⟨h1, h2⟩ := hc
    rw [Bool.and_eq_false_iff] at h
    rcases h with h | h
    · rw [decide_eq_false_iff_not] at h
      omega
    · rw [decide_eq_false_iff_not] at h
      exact h h2
  · intro h
    rw [Bool.and_eq_false_iff]
    rcases h with h | h
    · left
      rw [decide_eq_false_iff_not]
      omega
    · right
      rw [decide_eq_false_iff_not]
      exact not_le.mpr h

/-- **C10.** `Grisu2Round` modifies at most the single byte at index
`length - 1` of the digit buffer: the buffer keeps its length, and every
position other than `length - 1` is unchanged.  (The digit count `length` is
passed by value in the source and cannot be altered by the call.) -/
theorem grisu2Round_frame (buffer : List Nat) (length : Nat)
    (dist delta rest tenKappa : Nat) :
    (Grisu2Round buffer length dist delta rest tenKappa).length = buffer.length ∧
    ∀ i, i ≠ length - 1 →
      (Grisu2Round buffer length dist delta rest tenKappa).getD i 0 = buffer.getD i 0 := by
  rw [Grisu2Round]
  refine ⟨by simp, ?_⟩
  intro i hi
  simp only [List.getD_eq_getElem?_getD]
  rw [List.getElem?_set_ne (fun h => hi h.symm)]

/-- **C9.** Sign and special-value handling of the full `Dtoa` wrapper (for
doubles; the NaN/Inf spellings are arbitrary parameters): negating a
positive finite or infinite value prepends exactly `-`; `+0` formats as `0`
(`0.0` with the trailing-dot option); `-0` as `-0` (`-0.0`); any NaN formats
as the NaN spelling with no sign regardless of its sign bit; and the two
infinities format as the optional sign followed by the Inf spelling. -/
theorem dtoa_sign_and_specials (m b : Nat) (f : Bool) (nanS infS : List Char)
    (hm0 : m ≠ 0) (hmu : m < 9223372036854775808)
    (hmnan : ¬((m / 2^52) % 2^11 = 2047 ∧ m % 2^52 ≠ 0))
    (hbnan : (b / 2^52) % 2^11 = 2047 ∧ b % 2^52 ≠ 0) :
    Dtoa64 (9223372036854775808 + m) f nanS infS = '-' :: Dtoa64 m f nanS infS ∧
    Dtoa64 0 f nanS infS = '0' :: (if f then ['.', '0'] else []) ∧
    Dtoa64 9223372036854775808 f nanS infS =
      '-' :: '0' :: (if f then ['.', '0'] else []) ∧
    Dtoa64 b f nanS infS = nanS ∧
    Dtoa64 9218868437227405312 f nanS infS = infS ∧
    Dtoa64 18442240474082181120 f nanS infS = '-' :: infS := by
  refine ⟨?_, ?_, ?_, ?_, ?_, ?_⟩
  · -- sign propagation
    have e1 : (9223372036854775808 + m) / 2^52 % 2^11 = m / 2^52 % 2^11 := by omega
    have e2 : (9223372036854775808 + m) % 2^52 = m % 2^52 := by omega
    have e3 : (9223372036854775808 + m) % 2^63 = m := by omega
    have e4 : m % 2^63 = m := by omega
    have e5 : (2:Nat)^63 ≤ 9223372036854775808 + m := by omega
    have e6 : ¬ ((2:Nat)^63 ≤ m) := by omega
    rw [Dtoa64, Dtoa64]
    rw [if_neg (by rw [e1, e2]; exact hmnan), if_neg hmnan]
    simp only [e3, e4, if_pos e5, if_neg e6]
    by_cases hinf : m = 2047 * 2^52
    · rw [if_pos hinf, if_pos hinf]
      rfl
    · rw [if_neg hinf, if_neg hinf, if_neg hm0, if_neg hm0]
      rfl
  · rw [Dtoa64]
    norm_num
  · rw [Dtoa64]
    rw [if_neg (by norm_num)]
    norm_num
  · rw [Dtoa64, if_pos hbnan]
  · rw [Dtoa64]
    rw [if_neg (by norm_num)]
    norm_num
  · rw [Dtoa64]
    rw [if_neg (by norm_num)]
    norm_num

/-- Witness for `dtoa_sign_and_specials`: magnitude bits of `1.5` and the
quiet-NaN pattern `0x7FF8000000000000`. -/
theorem dtoa_sign_and_specials_witness :
    (4609434218613702656 : Nat) ≠ 0 ∧ (4609434218613702656 : Nat) < 9223372036854775808 ∧
    ¬((4609434218613702656 / 2^52) % 2^11 = 2047 ∧ 4609434218613702656 % 2^52 ≠ 0) ∧
    ((9221120237041090560 / 2^52) % 2^11 = 2047 ∧ 9221120237041090560 % 2^52 ≠ 0) ∧
    (Dtoa64 (9223372036854775808 + 4609434218613702656) false [] ['I'] =
        '-' :: Dtoa64 4609434218613702656 false [] ['I'] ∧
      Dtoa64 0 false [] ['I'] = '0' :: (if false then ['.', '0'] else []) ∧
      Dtoa64 9223372036854775808 false [] ['I'] =
        '-' :: '0' :: (if false then ['.', '0'] else []) ∧
      Dtoa64 9221120237041090560 false [] ['I'] = [] ∧
      Dtoa64 9218868437227405312 false [] ['I'] = ['I'] ∧
      Dtoa64 18442240474082181120 false [] ['I'] = '-' :: ['I']) :=
  ⟨by decide, by decide, by decide, by decide,
   dtoa_sign_and_specials 4609434218613702656 9221120237041090560 false [] ['I']
     (by decide) (by decide) (by decide) (by decide)⟩

theorem mul_mod_absorb (a b n : Nat) : (a * (b % n)) % n = (a * b) % n := by
  conv_rhs => rw [Nat.mul_mod]
  conv_lhs => rw [Nat.mul_mod]
  rw [Nat.mod_mod_of_dvd _ dvd_rfl]

/-- Main invariants of the fractional-digit loop.  Under the entry conditions
of the `p2 > delta` branch of `Grisu2DigitGen` (`p2 < M`, `delta < p2`,
`dist ≤ delta`, `M ≤ 2^60`), the loop runs `m ≥ 1` iterations with `m ≤ fuel`,
the iteration before the exit failed the exit test (closed form), the scaled
`delta`/`distance` are exact (no wrap-around), `rest < M`, the loop exits
within fuel `fuel` whenever `M ≤ delta * 10^fuel`, and on exit the final
digit `d` satisfies `d ≤ 9`, `rest ≤ delta_final` and
`d * M + rest > delta_final`. -/
theorem fracLoop_spec (M : Nat) (hM1 : 0 < M) (hM : M ≤ 1152921504606846976) :
    ∀ fuel p2 delta dist, p2 < M → delta < p2 → dist ≤ delta →
      (Grisu2FracLoop M p2 delta dist fuel).m ≤ fuel ∧
      (1 ≤ fuel → 1 ≤ (Grisu2FracLoop M p2 delta dist fuel).m) ∧
      (10^((Grisu2FracLoop M p2 delta dist fuel).m - 1) * p2) % M >
        delta * 10^((Grisu2FracLoop M p2 delta dist fuel).m - 1) ∧
      (Grisu2FracLoop M p2 delta dist fuel).digits.length =
        (Grisu2FracLoop M p2 delta dist fuel).m ∧
      (Grisu2FracLoop M p2 delta dist fuel).delta =
        delta * 10^(Grisu2FracLoop M p2 delta dist fuel).m ∧
      (Grisu2FracLoop M p2 delta dist fuel).distance =
        dist * 10^(Grisu2FracLoop M p2 delta dist fuel).m ∧
      (Grisu2FracLoop M p2 delta dist fuel).rest < M ∧
      (M ≤ delta * 10^fuel → (Grisu2FracLoop M p2 delta dist fuel).exited = true) ∧
      ((Grisu2FracLoop M p2 delta dist fuel).exited = true →
        (Grisu2FracLoop M p2 delta dist fuel).rest ≤
          (Grisu2FracLoop M p2 delta dist fuel).delta ∧
        ∃ ds d, (Grisu2FracLoop M p2 delta dist fuel).digits = ds ++ [d] ∧ d ≤ 9 ∧
          d * M + (Grisu2FracLoop M p2 delta dist fuel).rest >
            (Grisu2FracLoop M p2 delta dist fuel).delta) := by
  intro fuel
  induction fuel with
  | zero =>
    intro p2 delta dist hp2 hdp hdd
    refine ⟨Nat.le_refl _, by omega, ?_, rfl, ?_, ?_, hp2, ?_, ?_⟩
    · show (10^(0 - 1) * p2) % M > delta * 10^(0 - 1)
      simp only [Nat.zero_sub, pow_zero, one_mul, mul_one]
      rw [Nat.mod_eq_of_lt hp2]
      exact hdp
    · show delta = delta * 10^0
      rw [pow_zero, mul_one]
    · show dist = dist * 10^0
      rw [pow_zero, mul_one]
    · intro h
      exfalso
      have h0 : (10:Nat)^0 = 1 := pow_zero 10
      omega
    · intro h
      exact absurd h (by simp [Grisu2FracLoop])
  | succ f ih =>
    intro p2 delta dist hp2 hdp hdd
    have hw1 : u64 (p2 * 10) = p2 * 10 := Nat.mod_eq_of_lt (by omega)
    have hw2 : u64 (delta * 10) = delta * 10 := Nat.mod_eq_of_lt (by omega)
    have hw3 : u64 (dist * 10) = dist * 10 := Nat.mod_eq_of_lt (by omega)
    have hsplit : (p2 * 10) / M * M + (p2 * 10) % M = p2 * 10 := Nat.div_add_mod' _ _
    have hrlt : (p2 * 10) % M < M := Nat.mod_lt _ hM1
    have hdle : (p2 * 10) / M ≤ 9 := by
      have h10 : p2 * 10 < 10 * M := by omega
      have := (Nat.div_lt_iff_lt_mul hM1).mpr h10
      omega
    have hunf : Grisu2FracLoop M p2 delta dist (f + 1) =
        (if (p2 * 10) % M ≤ delta * 10 then
          ⟨[(p2 * 10) / M], 1, (p2 * 10) % M, delta * 10, dist * 10, true,
            decide (p2 ≤ 1844674407370955161)⟩
        else
          ⟨(p2 * 10) / M :: (Grisu2FracLoop M ((p2 * 10) % M) (delta * 10) (dist * 10) f).digits,
            (Grisu2FracLoop M ((p2 * 10) % M) (delta * 10) (dist * 10) f).m + 1,
            (Grisu2FracLoop M ((p2 * 10) % M) (delta * 10) (dist * 10) f).rest,
            (Grisu2FracLoop M ((p2 * 10) % M) (delta * 10) (dist * 10) f).delta,
            (Grisu2FracLoop M ((p2 * 10) % M) (delta * 10) (dist * 10) f).distance,
            (Grisu2FracLoop M ((p2 * 10) % M) (delta * 10) (dist * 10) f).exited,
            decide (p2 ≤ 1844674407370955161) &&
              (Grisu2FracLoop M ((p2 * 10) % M) (delta * 10) (dist * 10) f).assertsOk⟩) := by
      show (let ok0 := decide (p2 ≤ 1844674407370955161)
        let p2a := u64 (p2 * 10)
        let d := p2a / M
        let r := p2a % M
        let delta1 := u64 (delta * 10)
        let dist1 := u64 (dist * 10)
        if r ≤ delta1 then (⟨[d], 1, r, delta1, dist1, true, ok0⟩ : FracResult)
        else
          let t := Grisu2FracLoop M r delta1 dist1 f
          ⟨d :: t.digits, t.m + 1, t.rest, t.delta, t.distance, t.exited,
            ok0 && t.assertsOk⟩) = _
      rw [hw1, hw2, hw3]
    by_cases hexit : (p2 * 10) % M ≤ delta * 10
    · rw [hunf, if_pos hexit]
      refine ⟨?_, ?_, ?_, rfl, ?_, ?_, hrlt, fun _ => rfl, ?_⟩
      · show (1:Nat) ≤ f + 1
        omega
      · intro _
        show (1:Nat) ≤ 1
        exact le_refl 1
      · show (10^(1 - 1) * p2) % M > delta * 10^(1 - 1)
        norm_num
        rw [Nat.mod_eq_of_lt hp2]
        exact hdp
      · show delta * 10 = delta * 10^1
        rw [pow_one]
      · show dist * 10 = dist * 10^1
        rw [pow_one]
      · intro _
        refine ⟨hexit, [], (p2 * 10) / M, rfl, hdle, ?_⟩
        show (p2 * 10) / M * M + (p2 * 10) % M > delta * 10
        omega
    · rw [hunf, if_neg hexit]
      push_neg at hexit
      obtain ⟨qa, qb, qc, qd, qe, qf, qg, qh, qi⟩ :=
        ih ((p2 * 10) % M) (delta * 10) (dist * 10) hrlt hexit (by omega)
      set t := Grisu2FracLoop M ((p2 * 10) % M) (delta * 10) (dist * 10) f with ht
      refine ⟨?_, ?_, ?_, ?_, ?_, ?_, qg, ?_, ?_⟩
      · show t.m + 1 ≤ f + 1
        omega
      · intro _
        show 1 ≤ t.m + 1
        omega
      · show (10^(t.m + 1 - 1) * p2) % M > delta * 10^(t.m + 1 - 1)
        rcases Nat.eq_zero_or_pos t.m with hm0 | hmpos
        · rw [hm0]
          simp only [Nat.add_sub_cancel, pow_zero, one_mul, mul_one]
          rw [Nat.mod_eq_of_lt hp2]
          exact hdp
        · have hmm : t.m + 1 - 1 = (t.m - 1) + 1 := by omega
          rw [hmm]
          have hc' := qc
          rw [mul_mod_absorb] at hc'
          have heq : 10^(t.m - 1) * (p2 * 10) = 10^((t.m - 1) + 1) * p2 := by
            rw [pow_succ]
            ring
          rw [heq] at hc'
          have heq2 : delta * 10 * 10^(t.m - 1) = delta * 10^((t.m - 1) + 1) := by
            rw [pow_succ]
            ring
          rw [heq2] at hc'
          exact hc'
      · show ((p2 * 10) / M :: t.digits).length = t.m + 1
        rw [List.length_cons, qd]
      · show t.delta = delta * 10^(t.m + 1)
        rw [qe, pow_succ]
        ring
      · show t.distance = dist * 10^(t.m + 1)
        rw [qf, pow_succ]
        ring
      · intro hfull
        show t.exited = true
        apply qh
        calc M ≤ delta * 10^(f + 1) := hfull
          _ = delta * 10 * 10^f := by rw [pow_succ]; ring
      · intro hex
        have hex' : t.exited = true := hex
        obtain ⟨hrd, ds, dl, hds, hdl9, hgt⟩ := qi hex'
        exact ⟨hrd, (p2 * 10) / M :: ds, dl, by rw [hds]; rfl, hdl9, hgt⟩

/-- Main invariants of the digit-trimming loop.  If `buffer` holds the `k`
decimal digits of `p1` (most significant first), `10^(k-1) ≤ p1 < 10^k`,
`H = p1 * M + p2 < 2^64` and `delta < H`, then starting the loop at position
`n` with `rest = (p1 mod 10^n) * M + p2 ≤ delta` and `ten_kappa = 10^n * M`,
it exits at some `n ≤ nf ≤ k - 1` with the exact closed-form state, the
residual still at most `delta`, and the exit test
`d * ten_kappa + rest > delta` satisfied by the digit `d` at position `nf`;
no `uint64` operation wraps around. -/
theorem trimLoop_spec (buffer : List Nat) (p1 M p2 delta k : Nat)
    (hM1 : 0 < M) (hH : p1 * M + p2 < 18446744073709551616)
    (hdelta : delta < p1 * M + p2)
    (hk1 : 1 ≤ k) (hp1lo : 10^(k - 1) ≤ p1) (hp1hi : p1 < 10^k)
    (hdig : ∀ j, j < k → buffer.getD (k - 1 - j) 0 = p1 / 10^j % 10) :
    ∀ fuel n, k ≤ n + fuel → n ≤ k - 1 →
      (p1 % 10^n) * M + p2 ≤ delta →
      ∃ nf, Grisu2TrimLoop buffer k delta ((p1 % 10^n) * M + p2) (10^n * M) n fuel =
          (k - nf, nf, (p1 % 10^nf) * M + p2, 10^nf * M) ∧
        n ≤ nf ∧ nf ≤ k - 1 ∧
        (p1 % 10^nf) * M + p2 ≤ delta ∧
        delta < (p1 / 10^nf % 10) * (10^nf * M) + ((p1 % 10^nf) * M + p2) := by
  intro fuel
  induction fuel with
  | zero =>
    intro n hfn hnk hrest
    omega
  | succ f ih =>
    intro n hfn hnk hrest
    have hnltk : n < k := by omega
    have hmodle : p1 % 10^(n + 1) ≤ p1 := Nat.mod_le _ _
    have hsucc : p1 % 10^(n + 1) = p1 % 10^n + 10^n * (p1 / 10^n % 10) :=
      Nat.mod_pow_succ
    have hrn_true : (p1 / 10^n % 10) * (10^n * M) + ((p1 % 10^n) * M + p2) =
        (p1 % 10^(n + 1)) * M + p2 := by
      rw [hsucc]
      ring
    have hrn_lt : (p1 % 10^(n + 1)) * M + p2 < 18446744073709551616 := by
      have := Nat.mul_le_mul_right M hmodle
      omega
    have hw1 : u64 ((p1 / 10^n % 10) * (10^n * M) + ((p1 % 10^n) * M + p2)) =
        (p1 % 10^(n + 1)) * M + p2 := by
      rw [hrn_true]
      exact Nat.mod_eq_of_lt hrn_lt
    have hunf : Grisu2TrimLoop buffer k delta ((p1 % 10^n) * M + p2) (10^n * M) n (f + 1) =
        (if delta < (p1 % 10^(n + 1)) * M + p2 then
          (k - n, n, (p1 % 10^n) * M + p2, 10^n * M)
        else Grisu2TrimLoop buffer k delta ((p1 % 10^(n + 1)) * M + p2)
          (u64 (10^n * M * 10)) (n + 1) f) := by
      show (if delta < u64 (buffer.getD (k - 1 - n) 0 * (10^n * M) + ((p1 % 10^n) * M + p2))
          then (k - n, n, (p1 % 10^n) * M + p2, 10^n * M)
          else Grisu2TrimLoop buffer k delta
            (u64 (buffer.getD (k - 1 - n) 0 * (10^n * M) + ((p1 % 10^n) * M + p2)))
            (u64 ((10^n * M) * 10)) (n + 1) f) = _
      rw [hdig n hnltk, hw1]
    by_cases hexit : delta < (p1 % 10^(n + 1)) * M + p2
    · rw [hunf, if_pos hexit]
      refine ⟨n, rfl, le_refl n, hnk, hrest, ?_⟩
      rw [hrn_true]
      exact hexit
    · rw [hunf, if_neg hexit]
      push_neg at hexit
      -- the loop cannot be at the last digit: there the residual is all of H
      have hne : n ≠ k - 1 := by
        intro hcontra
        have hnk1 : n + 1 = k := by omega
        rw [hnk1, Nat.mod_eq_of_lt hp1hi] at hexit
        omega
      have hnk2 : n + 1 ≤ k - 1 := by omega
      have h10n1 : 10^(n + 1) ≤ p1 := by
        calc (10:Nat)^(n + 1) ≤ 10^(k - 1) := Nat.pow_le_pow_right (by norm_num) (by omega)
          _ ≤ p1 := hp1lo
      have htk_no : 10^(n + 1) * M < 18446744073709551616 := by
        have h2 : 10^(n + 1) * M ≤ p1 * M := Nat.mul_le_mul_right M h10n1
        omega
      have hw2 : u64 (10^n * M * 10) = 10^(n + 1) * M := by
        have he : 10^n * M * 10 = 10^(n + 1) * M := by
          rw [pow_succ]
          ring
        rw [he]
        exact Nat.mod_eq_of_lt htk_no
      rw [hw2]
      obtain ⟨nf, heq, h1, h2, h3, h4⟩ := ih (n + 1) (by omega) hnk2 hexit
      exact ⟨nf, heq, by omega, h2, h3, h4⟩

/-- Safety of the `Grisu2Round` decrement loop.  Under the call conditions
established by `Grisu2DigitGen` — `distance ≤ delta`, `ten_kappa > 0`, all
quantities below `2^64`, and the exit-test guarantee
`delta < digit * ten_kappa + rest` for the last digit in the buffer — the
loop in C `uint64_t` semantics never wraps around (it agrees step for step
with the exact-arithmetic loop) and the assertion `digit != 0` holds at
every execution of the loop body. -/
theorem roundLoop_spec (dist delta tk : Nat) (hdd : dist ≤ delta)
    (hd64 : delta < 18446744073709551616) (htk : 0 < tk) :
    ∀ fuel (digit : Int) (rest : Nat), rest < 18446744073709551616 →
      (delta : Int) < digit * tk + rest →
      (Grisu2RoundLoop dist delta tk digit rest fuel).2.2 = true ∧
      ((Grisu2RoundLoop dist delta tk digit rest fuel).1,
        ((Grisu2RoundLoop dist delta tk digit rest fuel).2.1 : Int)) =
        Grisu2RoundLoopExact (dist : Int) (delta : Int) (tk : Int) digit (rest : Int) fuel := by
  intro fuel
  induction fuel with
  | zero =>
    intro digit rest h64 hinv
    exact ⟨rfl, rfl⟩
  | succ f ih =>
    intro digit rest h64 hinv
    by_cases hc1 : rest < dist
    · -- the first condition holds; the unsigned subtractions are exact
      have hrd : rest ≤ delta := by omega
      have hsub1 : usub64 delta rest = delta - rest := by
        show (delta + 18446744073709551616 - rest) % 18446744073709551616 = delta - rest
        omega
      by_cases hc2 : tk ≤ delta - rest
      · have hadd : uadd64 rest tk = rest + tk := by
          show (rest + tk) % 18446744073709551616 = rest + tk
          omega
        have hcondeq : (rest < dist ∧ tk ≤ usub64 delta rest ∧
            (uadd64 rest tk ≤ dist ∨
              usub64 (uadd64 rest tk) dist < usub64 dist rest)) ↔
            ((rest : Int) < dist ∧ (tk : Int) ≤ (delta : Int) - rest ∧
              ((rest : Int) + tk ≤ dist ∨
                (rest : Int) + tk - dist < (dist : Int) - rest)) := by
          rw [hsub1, hadd]
          constructor
          · rintro ⟨x1, x2, x3⟩
            refine ⟨by exact_mod_cast x1, by omega, ?_⟩
            by_cases hled : rest + tk ≤ dist
            · left
              exact_mod_cast hled
            · right
              rcases x3 with x3 | x3
              · exact absurd x3 hled
              · rw [usub64, usub64] at x3
                push_neg at hled
                omega
          · rintro ⟨x1, x2, x3⟩
            refine ⟨by exact_mod_cast x1, by omega, ?_⟩
            by_cases hled : rest + tk ≤ dist
            · left
              exact hled
            · right
              rw [usub64, usub64]
              push_neg at hled
              rcases x3 with x3 | x3
              · exfalso
                have hx : rest + tk ≤ dist := by exact_mod_cast x3
                omega
              · omega
        by_cases hc3 : rest < dist ∧ tk ≤ usub64 delta rest ∧
            (uadd64 rest tk ≤ dist ∨
              usub64 (uadd64 rest tk) dist < usub64 dist rest)
        · -- body executes: digit must be nonzero and the invariant is preserved
          have hdigitpos : 1 ≤ digit := by
            by_contra hd0
            push_neg at hd0
            have : digit * (tk : Int) ≤ 0 := by
              apply mul_nonpos_of_nonpos_of_nonneg (by omega)
              exact_mod_cast Nat.zero_le tk
            omega
          have hrest' : rest + tk < 18446744073709551616 := by omega
          have hinv' : (delta : Int) < (digit - 1) * tk + ((rest + tk : Nat) : Int) := by
            push_cast
            have hexp : (digit - 1) * (tk : Int) + ((rest : Int) + tk) =
                digit * tk + rest := by ring
            rw [hexp]
            exact hinv
          obtain ⟨hok, heq⟩ := ih (digit - 1) (rest + tk) hrest' hinv'
          have hunfold : Grisu2RoundLoop dist delta tk digit rest (f + 1) =
              (let t := Grisu2RoundLoop dist delta tk (digit - 1) (uadd64 rest tk) f
               (t.1, t.2.1, t.2.2 && decide (digit ≠ 0))) := by
            show (if rest < dist ∧ tk ≤ usub64 delta rest ∧
                (uadd64 rest tk ≤ dist ∨
                  usub64 (uadd64 rest tk) dist < usub64 dist rest) then
              (let t := Grisu2RoundLoop dist delta tk (digit - 1) (uadd64 rest tk) f
               (t.1, t.2.1, t.2.2 && decide (digit ≠ 0)))
            else (digit, rest, true)) = _
            rw [if_pos hc3]
          have hunfoldE : Grisu2RoundLoopExact (dist : Int) (delta : Int) (tk : Int)
              digit (rest : Int) (f + 1) =
              Grisu2RoundLoopExact (dist : Int) (delta : Int) (tk : Int) (digit - 1)
                ((rest : Int) + tk) f := by
            show (if (rest : Int) < dist ∧ (tk : Int) ≤ (delta : Int) - rest ∧
                ((rest : Int) + tk ≤ dist ∨
                  (rest : Int) + tk - dist < (dist : Int) - rest) then
              Grisu2RoundLoopExact (dist : Int) (delta : Int) (tk : Int) (digit - 1)
                ((rest : Int) + tk) f
            else (digit, (rest : Int))) = _
            rw [if_pos (hcondeq.mp hc3)]
          rw [hunfold, hunfoldE]
          rw [hadd] at *
          constructor
          · show ((Grisu2RoundLoop dist delta tk (digit - 1) (rest + tk) f).2.2 &&
              decide (digit ≠ 0)) = true
            rw [hok]
            simp only [Bool.true_and, decide_eq_true_eq]
            omega
          · show ((Grisu2RoundLoop dist delta tk (digit - 1) (rest + tk) f).1,
              ((Grisu2RoundLoop dist delta tk (digit - 1) (rest + tk) f).2.1 : Int)) = _
            rw [heq]
            push_cast
            rfl
        · -- condition false in both semantics: both loops exit immediately
          have hunfold : Grisu2RoundLoop dist delta tk digit rest (f + 1) =
              (digit, rest, true) := by
            show (if rest < dist ∧ tk ≤ usub64 delta rest ∧
                (uadd64 rest tk ≤ dist ∨
                  usub64 (uadd64 rest tk) dist < usub64 dist rest) then
              (let t := Grisu2RoundLoop dist delta tk (digit - 1) (uadd64 rest tk) f
               (t.1, t.2.1, t.2.2 && decide (digit ≠ 0)))
            else (digit, rest, true)) = _
            rw [if_neg hc3]
          have hunfoldE : Grisu2RoundLoopExact (dist : Int) (delta : Int) (tk : Int)
              digit (rest : Int) (f + 1) = (digit, (rest : Int)) := by
            show (if (rest : Int) < dist ∧ (tk : Int) ≤ (delta : Int) - rest ∧
                ((rest : Int) + tk ≤ dist ∨
                  (rest : Int) + tk - dist < (dist : Int) - rest) then
              Grisu2RoundLoopExact (dist : Int) (delta : Int) (tk : Int) (digit - 1)
                ((rest : Int) + tk) f
            else (digit, (rest : Int))) = _
            rw [if_neg (fun hx => hc3 (hcondeq.mpr hx))]
          rw [hunfold, hunfoldE]
          exact ⟨rfl, rfl⟩
      · -- second condition fails in both semantics
        have hcfalse : ¬(rest < dist ∧ tk ≤ usub64 delta rest ∧
            (uadd64 rest tk ≤ dist ∨
              usub64 (uadd64 rest tk) dist < usub64 dist rest)) := by
          rintro ⟨-, x2, -⟩
          rw [hsub1] at x2
          exact hc2 x2
        have hcfalseE : ¬((rest : Int) < dist ∧ (tk : Int) ≤ (delta : Int) - rest ∧
            ((rest : Int) + tk ≤ dist ∨
              (rest : Int) + tk - dist < (dist : Int) - rest)) := by
          rintro ⟨-, x2, -⟩
          apply hc2
          omega
        have hunfold : Grisu2RoundLoop dist delta tk digit rest (f + 1) =
            (digit, rest, true) := by
          show (if rest < dist ∧ tk ≤ usub64 delta rest ∧
              (uadd64 rest tk ≤ dist ∨
                usub64 (uadd64 rest tk) dist < usub64 dist rest) then
            (let t := Grisu2RoundLoop dist delta tk (digit - 1) (uadd64 rest tk) f
             (t.1, t.2.1, t.2.2 && decide (digit ≠ 0)))
          else (digit, rest, true)) = _
          rw [if_neg hcfalse]
        have hunfoldE : Grisu2RoundLoopExact (dist : Int) (delta : Int) (tk : Int)
            digit (rest : Int) (f + 1) = (digit, (rest : Int)) := by
          show (if (rest : Int) < dist ∧ (tk : Int) ≤ (delta : Int) - rest ∧
              ((rest : Int) + tk ≤ dist ∨
                (rest : Int) + tk - dist < (dist : Int) - rest) then
            Grisu2RoundLoopExact (dist : Int) (delta : Int) (tk : Int) (digit - 1)
              ((rest : Int) + tk) f
          else (digit, (rest : Int))) = _
          rw [if_neg hcfalseE]
        rw [hunfold, hunfoldE]
        exact ⟨rfl, rfl⟩
    · -- the first condition fails in both semantics
      have hcfalse : ¬(rest < dist ∧ tk ≤ usub64 delta rest ∧
          (uadd64 rest tk ≤ dist ∨
            usub64 (uadd64 rest tk) dist < usub64 dist rest)) := by
        rintro ⟨x1, -, -⟩
        exact hc1 x1
      have hcfalseE : ¬((rest : Int) < dist ∧ (tk : Int) ≤ (delta : Int) - rest ∧
          ((rest : Int) + tk ≤ dist ∨
            (rest : Int) + tk - dist < (dist : Int) - rest)) := by
        rintro ⟨x1, -, -⟩
        apply hc1
        exact_mod_cast x1
      have hunfold : Grisu2RoundLoop dist delta tk digit rest (f + 1) =
          (digit, rest, true) := by
        show (if rest < dist ∧ tk ≤ usub64 delta rest ∧
            (uadd64 rest tk ≤ dist ∨
              usub64 (uadd64 rest tk) dist < usub64 dist rest) then
          (let t := Grisu2RoundLoop dist delta tk (digit - 1) (uadd64 rest tk) f
           (t.1, t.2.1, t.2.2 && decide (digit ≠ 0)))
        else (digit, rest, true)) = _
        rw [if_neg hcfalse]
      have hunfoldE : Grisu2RoundLoopExact (dist : Int) (delta : Int) (tk : Int)
          digit (rest : Int) (f + 1) = (digit, (rest : Int)) := by
        show (if (rest : Int) < dist ∧ (tk : Int) ≤ (delta : Int) - rest ∧
            ((rest : Int) + tk ≤ dist ∨
              (rest : Int) + tk - dist < (dist : Int) - rest) then
          Grisu2RoundLoopExact (dist : Int) (delta : Int) (tk : Int) (digit - 1)
            ((rest : Int) + tk) f
        else (digit, (rest : Int))) = _
        rw [if_neg hcfalseE]
      rw [hunfold, hunfoldE]
      exact ⟨rfl, rfl⟩

theorem genDigits1_spec (n : Nat) (hlo : 1 ≤ n) (hhi : n < 10) :
    (GenDigits1 n).length = 1 ∧
    ∀ j, j < 1 → (GenDigits1 n).getD (1 - 1 - j) 0 = n / 10^j % 10 := by
  constructor
  · rfl
  · intro j hj
    interval_cases j <;>
      simp [GenDigits1, Utoa100] <;>
      omega

theorem genDigits2_spec (n : Nat) (hlo : 10 ≤ n) (hhi : n < 100) :
    (GenDigits2 n).length = 2 ∧
    ∀ j, j < 2 → (GenDigits2 n).getD (2 - 1 - j) 0 = n / 10^j % 10 := by
  constructor
  · rfl
  · intro j hj
    interval_cases j <;>
      simp [GenDigits2, Utoa100] <;>
      omega

theorem genDigits3_spec (n : Nat) (hlo : 100 ≤ n) (hhi : n < 1000) :
    (GenDigits3 n).length = 3 ∧
    ∀ j, j < 3 → (GenDigits3 n).getD (3 - 1 - j) 0 = n / 10^j % 10 := by
  constructor
  · rfl
  · intro j hj
    interval_cases j <;>
      simp [GenDigits3, GenDigits1, Utoa100] <;>
      omega

theorem genDigits4_spec (n : Nat) (hlo : 1000 ≤ n) (hhi : n < 10000) :
    (GenDigits4 n).length = 4 ∧
    ∀ j, j < 4 → (GenDigits4 n).getD (4 - 1 - j) 0 = n / 10^j % 10 := by
  constructor
  · rfl
  · intro j hj
    interval_cases j <;>
      simp [GenDigits4, GenDigits2, Utoa100] <;>
      omega

theorem genDigits5_spec (n : Nat) (hlo : 10000 ≤ n) (hhi : n < 100000) :
    (GenDigits5 n).length = 5 ∧
    ∀ j, j < 5 → (GenDigits5 n).getD (5 - 1 - j) 0 = n / 10^j % 10 := by
  constructor
  · rfl
  · intro j hj
    interval_cases j <;>
      simp [GenDigits5, GenDigits3, GenDigits1, Utoa100] <;>
      omega

theorem genDigits6_spec (n : Nat) (hlo : 100000 ≤ n) (hhi : n < 1000000) :
    (GenDigits6 n).length = 6 ∧
    ∀ j, j < 6 → (GenDigits6 n).getD (6 - 1 - j) 0 = n / 10^j % 10 := by
  constructor
  · rfl
  · intro j hj
    interval_cases j <;>
      simp [GenDigits6, GenDigits4, GenDigits2, Utoa100] <;>
      omega

theorem genDigits7_spec (n : Nat) (hlo : 1000000 ≤ n) (hhi : n < 10000000) :
    (GenDigits7 n).length = 7 ∧
    ∀ j, j < 7 → (GenDigits7 n).getD (7 - 1 - j) 0 = n / 10^j % 10 := by
  constructor
  · rfl
  · intro j hj
    interval_cases j <;>
      simp [GenDigits7, GenDigits5, GenDigits3, GenDigits1, Utoa100] <;>
      omega

theorem genDigits8_spec (n : Nat) (hlo : 10000000 ≤ n) (hhi : n < 100000000) :
    (GenDigits8 n).length = 8 ∧
    ∀ j, j < 8 → (GenDigits8 n).getD (8 - 1 - j) 0 = n / 10^j % 10 := by
  constructor
  · rfl
  · intro j hj
    interval_cases j <;>
      simp [GenDigits8, GenDigits6, GenDigits4, GenDigits2, Utoa100] <;>
      omega

theorem genDigits9_spec (n : Nat) (hlo : 100000000 ≤ n) (hhi : n < 1000000000) :
    (GenDigits9 n).length = 9 ∧
    ∀ j, j < 9 → (GenDigits9 n).getD (9 - 1 - j) 0 = n / 10^j % 10 := by
  constructor
  · rfl
  · intro j hj
    interval_cases j <;>
      simp [GenDigits9, GenDigits7, GenDigits5, GenDigits3, GenDigits1, Utoa100] <;>
      omega

/-- Specification of the integral-digit cascade: for `1 ≤ n < 10^9` it
produces between 1 and 9 digit values, the count `k` satisfies
`10^(k-1) ≤ n < 10^k`, and the entry at position `k - 1 - j` is the decimal
digit `n / 10^j % 10`. -/
theorem generateIntegralDigits_spec (n : Nat) (h1 : 1 ≤ n) (h2 : n < 1000000000) :
    1 ≤ (GenerateIntegralDigits n).length ∧ (GenerateIntegralDigits n).length ≤ 9 ∧
    10^((GenerateIntegralDigits n).length - 1) ≤ n ∧
    n < 10^(GenerateIntegralDigits n).length ∧
    ∀ j, j < (GenerateIntegralDigits n).length →
      (GenerateIntegralDigits n).getD ((GenerateIntegralDigits n).length - 1 - j) 0 =
        n / 10^j % 10 := by
  simp only [GenerateIntegralDigits]
  by_cases h9 : 100000000 ≤ n
  · rw [if_pos h9]
    obtain ⟨hlen, hget⟩ := genDigits9_spec n (by omega) (by omega)
    rw [hlen]
    exact ⟨by omega, by omega, by omega, by omega, hget⟩
  · rw [if_neg h9]
    by_cases h8 : 10000000 ≤ n
    · rw [if_pos h8]
      obtain ⟨hlen, hget⟩ := genDigits8_spec n (by omega) (by omega)
      rw [hlen]
      exact ⟨by omega, by omega, by omega, by omega, hget⟩
    · rw [if_neg h8]
      by_cases h7 : 1000000 ≤ n
      · rw [if_pos h7]
        obtain ⟨hlen, hget⟩ := genDigits7_spec n (by omega) (by omega)
        rw [hlen]
        exact ⟨by omega, by omega, by omega, by omega, hget⟩
      · rw [if_neg h7]
        by_cases h6 : 100000 ≤ n
        · rw [if_pos h6]
          obtain ⟨hlen, hget⟩ := genDigits6_spec n (by omega) (by omega)
          rw [hlen]
          exact ⟨by omega, by omega, by omega, by omega, hget⟩
        · rw [if_neg h6]
          by_cases h5 : 10000 ≤ n
          · rw [if_pos h5]
            obtain ⟨hlen, hget⟩ := genDigits5_spec n (by omega) (by omega)
            rw [hlen]
            exact ⟨by omega, by omega, by omega, by omega, hget⟩
          · rw [if_neg h5]
            by_cases h4 : 1000 ≤ n
            · rw [if_pos h4]
              obtain ⟨hlen, hget⟩ := genDigits4_spec n (by omega) (by omega)
              rw [hlen]
              exact ⟨by omega, by omega, by omega, by omega, hget⟩
            · rw [if_neg h4]
              by_cases h3 : 100 ≤ n
              · rw [if_pos h3]
                obtain ⟨hlen, hget⟩ := genDigits3_spec n (by omega) (by omega)
                rw [hlen]
                exact ⟨by omega, by omega, by omega, by omega, hget⟩
              · rw [if_neg h3]
                by_cases h2 : 10 ≤ n
                · rw [if_pos h2]
                  obtain ⟨hlen, hget⟩ := genDigits2_spec n (by omega) (by omega)
                  rw [hlen]
                  exact ⟨by omega, by omega, by omega, by omega, hget⟩
                · rw [if_neg h2]
                  obtain ⟨hlen, hget⟩ := genDigits1_spec n (by omega) (by omega)
                  rw [hlen]
                  exact ⟨by omega, by omega, by omega, by omega, hget⟩

theorem fracLoop_succ_eq (M p2 delta dist f : Nat) :
    Grisu2FracLoop M p2 delta dist (f + 1) =
      if u64 (p2 * 10) % M ≤ u64 (delta * 10) then
        ⟨[u64 (p2 * 10) / M], 1, u64 (p2 * 10) % M, u64 (delta * 10), u64 (dist * 10), true,
          decide (p2 ≤ 1844674407370955161)⟩
      else
        ⟨u64 (p2 * 10) / M ::
            (Grisu2FracLoop M (u64 (p2 * 10) % M) (u64 (delta * 10)) (u64 (dist * 10)) f).digits,
          (Grisu2FracLoop M (u64 (p2 * 10) % M) (u64 (delta * 10)) (u64 (dist * 10)) f).m + 1,
          (Grisu2FracLoop M (u64 (p2 * 10) % M) (u64 (delta * 10)) (u64 (dist * 10)) f).rest,
          (Grisu2FracLoop M (u64 (p2 * 10) % M) (u64 (delta * 10)) (u64 (dist * 10)) f).delta,
          (Grisu2FracLoop M (u64 (p2 * 10) % M) (u64 (delta * 10)) (u64 (dist * 10)) f).distance,
          (Grisu2FracLoop M (u64 (p2 * 10) % M) (u64 (delta * 10)) (u64 (dist * 10)) f).exited,
          decide (p2 ≤ 1844674407370955161) &&
            (Grisu2FracLoop M (u64 (p2 * 10) % M) (u64 (delta * 10)) (u64 (dist * 10)) f).assertsOk⟩ :=
  rfl

theorem fracLoop_assertsOk (s : Nat) (hs : s ≤ 60) :
    ∀ fuel p2 delta dist, p2 < 2^s →
      (Grisu2FracLoop (2^s) p2 delta dist fuel).assertsOk = true := by
  have h60 : (2:Nat)^s ≤ 1152921504606846976 := by
    calc (2:Nat)^s ≤ 2^60 := Nat.pow_le_pow_right (by norm_num) hs
      _ = 1152921504606846976 := by norm_num
  intro fuel
  induction fuel with
  | zero => intro p2 delta dist hp2; rfl
  | succ f ih =>
    intro p2 delta dist hp2
    have hok : decide (p2 ≤ 1844674407370955161) = true := by
      rw [decide_eq_true_eq]
      omega
    rw [fracLoop_succ_eq]
    by_cases hexit : u64 (p2 * 10) % 2^s ≤ u64 (delta * 10)
    · rw [if_pos hexit]
      exact hok
    · rw [if_neg hexit]
      show (decide (p2 ≤ 1844674407370955161) &&
        (Grisu2FracLoop (2^s) (u64 (p2 * 10) % 2^s) (u64 (delta * 10))
          (u64 (dist * 10)) f).assertsOk) = true
      rw [hok, ih _ _ _ (Nat.mod_lt _ (Nat.pow_pos (by norm_num)))]
      rfl

/-- **C8.** In the fractional-part loop of `Grisu2DigitGen` (the case
`p2 > delta`), the assertion `p2 ≤ 2^64 / 10` holds at every iteration
immediately before the multiplication `p2 *= 10`, for every call whose shared
exponent lies in `[kAlpha, kGamma] = [-60, -32]` — so the multiplication by
ten never overflows the 64-bit significand.  The loop below is invoked by
`Grisu2DigitGenPre` with exactly these arguments. -/
theorem grisu2DigitGen_fracLoop_no_overflow (L w H : DiyFp)
    (he1 : kAlpha ≤ H.e) (he2 : H.e ≤ kGamma) (hH : H.f < 18446744073709551616) :
    (Grisu2FracLoop (u64 (2^(-H.e).toNat)) (H.f % u64 (2^(-H.e).toNat))
        ((Subtract H L).f) ((Subtract H w).f) 64).assertsOk = true := by
  have hs2 : (-H.e).toNat ≤ 60 := by
    rw [kAlpha] at he1
    omega
  have hpow : (2:Nat)^(-H.e).toNat < 18446744073709551616 := by
    calc (2:Nat)^(-H.e).toNat ≤ 2^60 := Nat.pow_le_pow_right (by norm_num) hs2
      _ < 18446744073709551616 := by norm_num
  have hu : u64 (2^(-H.e).toNat) = 2^(-H.e).toNat := Nat.mod_eq_of_lt hpow
  rw [hu]
  exact fracLoop_assertsOk _ hs2 64 _ _ _ (Nat.mod_lt _ (Nat.pow_pos (by norm_num)))

/-- Witness for `grisu2DigitGen_fracLoop_no_overflow` at a concrete call. -/
theorem grisu2DigitGen_fracLoop_no_overflow_witness :
    kAlpha ≤ (-40 : Int) ∧ (-40 : Int) ≤ kGamma ∧
    (9223372036854775808 + 200 : Nat) < 18446744073709551616 ∧
    (Grisu2FracLoop (u64 (2^((-(-40 : Int)).toNat)))
        ((9223372036854775808 + 200) % u64 (2^((-(-40 : Int)).toNat)))
        ((Subtract ⟨9223372036854775808 + 200, -40⟩ ⟨9223372036854775808, -40⟩).f)
        ((Subtract ⟨9223372036854775808 + 200, -40⟩ ⟨9223372036854775808 + 100, -40⟩).f)
        64).assertsOk = true :=
  ⟨by decide, by decide, by decide,
   grisu2DigitGen_fracLoop_no_overflow ⟨9223372036854775808, -40⟩
     ⟨9223372036854775808 + 100, -40⟩ ⟨9223372036854775808 + 200, -40⟩
     (by decide) (by decide) (by decide)⟩

theorem trimLoop_length_le (buffer : List Nat) (k delta : Nat) :
    ∀ fuel rest tk n, (Grisu2TrimLoop buffer k delta rest tk n fuel).1 ≤ k := by
  intro fuel
  induction fuel with
  | zero =>
    intro rest tk n
    exact Nat.sub_le k n
  | succ f ih =>
    intro rest tk n
    show (if delta < u64 (buffer.getD (k - 1 - n) 0 * tk + rest) then (k - n, n, rest, tk)
      else Grisu2TrimLoop buffer k delta (u64 (buffer.getD (k - 1 - n) 0 * tk + rest))
        (u64 (tk * 10)) (n + 1) f).1 ≤ k
    by_cases hc : delta < u64 (buffer.getD (k - 1 - n) 0 * tk + rest)
    · rw [if_pos hc]
      exact Nat.sub_le k n
    · rw [if_neg hc]
      exact ih _ _ _

theorem getD_append_singleton (xs : List Nat) (d : Nat) :
    (xs ++ [d]).getD xs.length 0 = d := by
  induction xs with
  | nil => rfl
  | cons a t ih => exact ih

/-- Safety of the rounding call produced by the fractional branch of
`Grisu2DigitGen`: the decrement loop never wraps and the `digit != 0`
assertion holds throughout. -/
theorem fracBranch_round_safe (M p2 delta dist : Nat) (ids : List Nat) (t : FracResult)
    (ht : t = Grisu2FracLoop M p2 delta dist 64)
    (hM1 : 0 < M) (hM : M ≤ 1152921504606846976) (hp2 : p2 < M)
    (hdp : delta < p2) (hdd : dist ≤ delta) (hd1 : 1 ≤ delta) :
    ((Grisu2RoundLoop t.distance t.delta M
        ((ids ++ t.digits).getD (ids.length + t.m - 1) 0 : Int) t.rest 16).2.2 = true) ∧
    ((Grisu2RoundLoop t.distance t.delta M
        ((ids ++ t.digits).getD (ids.length + t.m - 1) 0 : Int) t.rest 16).1,
      ((Grisu2RoundLoop t.distance t.delta M
        ((ids ++ t.digits).getD (ids.length + t.m - 1) 0 : Int) t.rest 16).2.1 : Int)) =
      Grisu2RoundLoopExact (t.distance : Int) (t.delta : Int) (M : Int)
        ((ids ++ t.digits).getD (ids.length + t.m - 1) 0 : Int) (t.rest : Int) 16 := by
  have hspec := fracLoop_spec M hM1 hM 64 p2 delta dist hp2 hdp hdd
  rw [← ht] at hspec
  obtain ⟨hm64, hm1, hexit3, hlen, hdel, hdis, hrlt, hexif, hexprop⟩ := hspec
  have hm1' : 1 ≤ t.m := hm1 (by norm_num)
  have hex : t.exited = true := by
    apply hexif
    calc M ≤ 1152921504606846976 := hM
      _ ≤ 10^64 := by norm_num
      _ ≤ delta * 10^64 := Nat.le_mul_of_pos_left _ hd1
  obtain ⟨hrd, ds, d, hds, hd9, hgt⟩ := hexprop hex
  have hmodlt : (10^(t.m - 1) * p2) % M < M := Nat.mod_lt _ hM1
  have hdm : delta * 10^(t.m - 1) < M := by omega
  have h10m : (10:Nat)^t.m = 10^(t.m - 1) * 10 := by
    conv_lhs => rw [show t.m = t.m - 1 + 1 by omega]
    rw [pow_succ]
  have heqd : delta * 10^t.m = delta * 10^(t.m - 1) * 10 := by
    rw [h10m, ← mul_assoc]
  have hd64 : t.delta < 18446744073709551616 := by
    rw [hdel, heqd]
    omega
  have hdd' : t.distance ≤ t.delta := by
    rw [hdel, hdis]
    exact Nat.mul_le_mul_right _ hdd
  have hr64 : t.rest < 18446744073709551616 := by omega
  have hdslen : ds.length = t.m - 1 := by
    have h := hlen
    rw [hds, List.length_append, List.length_singleton] at h
    omega
  have hdigit : (ids ++ t.digits).getD (ids.length + t.m - 1) 0 = d := by
    rw [hds, ← List.append_assoc]
    have hidx : ids.length + t.m - 1 = (ids ++ ds).length := by
      rw [List.length_append, hdslen]
      omega
    rw [hidx, getD_append_singleton]
  rw [hdigit]
  exact roundLoop_spec t.distance t.delta M hdd' hd64 hM1 16 (d : Int) t.rest hr64
    (by exact_mod_cast hgt)

/-- Safety of the rounding call produced by the integral branch of
`Grisu2DigitGen` (the trimming loop ran): the decrement loop never wraps and
the `digit != 0` assertion holds throughout. -/
theorem trimBranch_round_safe (p1 M p2 delta dist : Nat)
    (r : Nat × Nat × Nat × Nat)
    (hr : r = Grisu2TrimLoop (GenerateIntegralDigits p1)
      (GenerateIntegralDigits p1).length delta p2 M 0 32)
    (hM1 : 0 < M) (hHlt : p1 * M + p2 < 18446744073709551616)
    (hdlt : delta < p1 * M + p2) (hp2d : p2 ≤ delta) (hdd : dist ≤ delta)
    (hp1lo : 1 ≤ p1) (hp1hi : p1 < 1000000000) :
    ((Grisu2RoundLoop dist delta r.2.2.2
        ((GenerateIntegralDigits p1).getD (r.1 - 1) 0 : Int) r.2.2.1 16).2.2 = true) ∧
    ((Grisu2RoundLoop dist delta r.2.2.2
        ((GenerateIntegralDigits p1).getD (r.1 - 1) 0 : Int) r.2.2.1 16).1,
      ((Grisu2RoundLoop dist delta r.2.2.2
        ((GenerateIntegralDigits p1).getD (r.1 - 1) 0 : Int) r.2.2.1 16).2.1 : Int)) =
      Grisu2RoundLoopExact (dist : Int) (delta : Int) (r.2.2.2 : Int)
        ((GenerateIntegralDigits p1).getD (r.1 - 1) 0 : Int) (r.2.2.1 : Int) 16 := by
  obtain ⟨h1k, hk9, hp1lo', hp1hi', hdig⟩ := generateIntegralDigits_spec p1 hp1lo hp1hi
  obtain ⟨nf, heq, hn0, hnfk, hrle, hexit⟩ :=
    trimLoop_spec (GenerateIntegralDigits p1) p1 M p2 delta
      (GenerateIntegralDigits p1).length hM1 hHlt hdlt h1k hp1lo' hp1hi' hdig
      32 0 (by omega) (by omega)
      (by rw [pow_zero, Nat.mod_one, Nat.zero_mul, Nat.zero_add]; exact hp2d)
  have hst1 : (p1 % 10^0) * M + p2 = p2 := by
    rw [pow_zero, Nat.mod_one, Nat.zero_mul, Nat.zero_add]
  have hst2 : (10:Nat)^0 * M = M := by simp
  rw [hst1, hst2] at heq
  rw [heq] at hr
  have h1 : r.1 = (GenerateIntegralDigits p1).length - nf := by rw [hr]
  have h2 : r.2.2.1 = (p1 % 10^nf) * M + p2 := by rw [hr]
  have h3 : r.2.2.2 = 10^nf * M := by rw [hr]
  have hnk : nf < (GenerateIntegralDigits p1).length := by omega
  rw [h1, h2, h3]
  have hdnf : (GenerateIntegralDigits p1).getD
      ((GenerateIntegralDigits p1).length - nf - 1) 0 = p1 / 10^nf % 10 := by
    rw [show (GenerateIntegralDigits p1).length - nf - 1 =
      (GenerateIntegralDigits p1).length - 1 - nf from by omega]
    exact hdig nf hnk
  rw [hdnf]
  have hdelta64 : delta < 18446744073709551616 := by omega
  have htkpos : 0 < 10^nf * M := Nat.mul_pos (Nat.pow_pos (by norm_num)) hM1
  have hr64 : (p1 % 10^nf) * M + p2 < 18446744073709551616 := by omega
  exact roundLoop_spec dist delta (10^nf * M) hdd hdelta64 htkpos 16
    ((p1 / 10^nf % 10 : Nat) : Int) ((p1 % 10^nf) * M + p2) hr64
    (by exact_mod_cast hexit)

/-- **C7.** In every call of `Grisu2Round` reachable from `Grisu2DigitGen`
(so with the digits of `H / 10^kappa` in the buffer, `distance ≤ delta`,
`rest ≤ delta`, `ten_kappa > 0`), whenever the decrement loop body executes
the current last digit is nonzero (the assertion `digit != 0` never fails),
and the three loop conditions evaluated in the listed order never wrap
around in unsigned arithmetic: the C `uint64_t` loop agrees step for step
with the exact-integer loop.  The preconditions are those established by
`Grisu2` for a finite positive double: shared exponent in `[kAlpha, kGamma]`,
`L.f ≤ w.f ≤ H.f` with a nonempty interval, `H.f ≥ 2^60` (the source
guarantees `w_plus.f >= 2^62`, so `H.f = w_plus.f - 1 ≥ 2^62 - 1`), and the
scaled integral part `H.f / 2^(-H.e)` at most `798336123`. -/
theorem grisu2Round_call_safe (L w H : DiyFp)
    (he1 : kAlpha ≤ H.e) (he2 : H.e ≤ kGamma)
    (hLw : L.f ≤ w.f) (hwH : w.f ≤ H.f) (hLH : L.f < H.f) (hL : 0 < L.f)
    (hH60 : 1152921504606846976 ≤ H.f) (hH : H.f < 18446744073709551616)
    (hp1hi : H.f / 2^(-H.e).toNat ≤ 798336123) :
    ((Grisu2RoundLoop (Grisu2DigitGenPre L w H).distance (Grisu2DigitGenPre L w H).delta
        (Grisu2DigitGenPre L w H).tenKappa
        ((Grisu2DigitGenPre L w H).buffer.getD ((Grisu2DigitGenPre L w H).length - 1) 0 : Int)
        (Grisu2DigitGenPre L w H).rest 16).2.2 = true) ∧
    ((Grisu2RoundLoop (Grisu2DigitGenPre L w H).distance (Grisu2DigitGenPre L w H).delta
        (Grisu2DigitGenPre L w H).tenKappa
        ((Grisu2DigitGenPre L w H).buffer.getD ((Grisu2DigitGenPre L w H).length - 1) 0 : Int)
        (Grisu2DigitGenPre L w H).rest 16).1,
      ((Grisu2RoundLoop (Grisu2DigitGenPre L w H).distance (Grisu2DigitGenPre L w H).delta
        (Grisu2DigitGenPre L w H).tenKappa
        ((Grisu2DigitGenPre L w H).buffer.getD ((Grisu2DigitGenPre L w H).length - 1) 0 : Int)
        (Grisu2DigitGenPre L w H).rest 16).2.1 : Int)) =
      Grisu2RoundLoopExact ((Grisu2DigitGenPre L w H).distance : Int)
        ((Grisu2DigitGenPre L w H).delta : Int)
        ((Grisu2DigitGenPre L w H).tenKappa : Int)
        ((Grisu2DigitGenPre L w H).buffer.getD ((Grisu2DigitGenPre L w H).length - 1) 0 : Int)
        ((Grisu2DigitGenPre L w H).rest : Int) 16 := by
  have hs2 : (-H.e).toNat ≤ 60 := by
    rw [kAlpha] at he1
    omega
  have hpowle : (2:Nat)^(-H.e).toNat ≤ 1152921504606846976 := by
    calc (2:Nat)^(-H.e).toNat ≤ 2^60 := Nat.pow_le_pow_right (by norm_num) hs2
      _ = 1152921504606846976 := by norm_num
  have hu : u64 (2^(-H.e).toNat) = 2^(-H.e).toNat := Nat.mod_eq_of_lt (by omega)
  have hponat : 0 < (2:Nat)^(-H.e).toNat := Nat.pow_pos (by norm_num)
  have hdeltaf : (Subtract H L).f = H.f - L.f := rfl
  have hdistf : (Subtract H w).f = H.f - w.f := rfl
  have hdd' : (Subtract H w).f ≤ (Subtract H L).f := by
    rw [hdeltaf, hdistf]
    omega
  simp only [Grisu2DigitGenPre]
  rw [hu]
  by_cases hbr : (Subtract H L).f < H.f % 2 ^ (-H.e).toNat
  · rw [if_pos hbr]
    exact fracBranch_round_safe (2^(-H.e).toNat) (H.f % 2^(-H.e).toNat)
      ((Subtract H L).f) ((Subtract H w).f)
      (GenerateIntegralDigits (H.f / 2^(-H.e).toNat % 4294967296))
      (Grisu2FracLoop (2^(-H.e).toNat) (H.f % 2^(-H.e).toNat)
        ((Subtract H L).f) ((Subtract H w).f) 64) rfl
      hponat hpowle (Nat.mod_lt _ hponat) hbr hdd' (by rw [hdeltaf]; omega)
  · rw [if_neg hbr]
    push_neg at hbr
    have hp1eq : H.f / 2 ^ (-H.e).toNat % 4294967296 = H.f / 2 ^ (-H.e).toNat :=
      Nat.mod_eq_of_lt (by omega)
    rw [hp1eq]
    have hsplit : H.f / 2^(-H.e).toNat * 2^(-H.e).toNat + H.f % 2^(-H.e).toNat = H.f :=
      Nat.div_add_mod' _ _
    exact trimBranch_round_safe (H.f / 2^(-H.e).toNat) (2^(-H.e).toNat)
      (H.f % 2^(-H.e).toNat) ((Subtract H L).f) ((Subtract H w).f)
      (Grisu2TrimLoop (GenerateIntegralDigits (H.f / 2^(-H.e).toNat))
        (GenerateIntegralDigits (H.f / 2^(-H.e).toNat)).length
        ((Subtract H L).f) (H.f % 2^(-H.e).toNat) (2^(-H.e).toNat) 0 32) rfl
      hponat (by omega) (by rw [hdeltaf]; omega) hbr hdd'
      (Nat.div_pos (by omega) hponat) (by omega)

def c7L : DiyFp := ⟨8444249301319679376, -49⟩

def c7w : DiyFp := ⟨8444249301319680000, -49⟩

def c7H : DiyFp := ⟨8444249301319680624, -49⟩

/-- Witness for `grisu2Round_call_safe` at the scaled triple `Grisu2`
produces for the double `1.5` (note `c7H.f < 2^63`: the upper boundary is
not normalized there, only `≥ 2^62 - 1`). -/
theorem grisu2Round_call_safe_witness :
    (kAlpha ≤ c7H.e ∧ c7H.e ≤ kGamma ∧ c7L.f ≤ c7w.f ∧ c7w.f ≤ c7H.f ∧
      c7L.f < c7H.f ∧ 0 < c7L.f ∧ 1152921504606846976 ≤ c7H.f ∧
      c7H.f < 18446744073709551616 ∧ c7H.f / 2^(-c7H.e).toNat ≤ 798336123) ∧
    ((Grisu2RoundLoop (Grisu2DigitGenPre c7L c7w c7H).distance
        (Grisu2DigitGenPre c7L c7w c7H).delta
        (Grisu2DigitGenPre c7L c7w c7H).tenKappa
        ((Grisu2DigitGenPre c7L c7w c7H).buffer.getD
          ((Grisu2DigitGenPre c7L c7w c7H).length - 1) 0 : Int)
        (Grisu2DigitGenPre c7L c7w c7H).rest 16).2.2 = true) ∧
    ((Grisu2RoundLoop (Grisu2DigitGenPre c7L c7w c7H).distance
        (Grisu2DigitGenPre c7L c7w c7H).delta
        (Grisu2DigitGenPre c7L c7w c7H).tenKappa
        ((Grisu2DigitGenPre c7L c7w c7H).buffer.getD
          ((Grisu2DigitGenPre c7L c7w c7H).length - 1) 0 : Int)
        (Grisu2DigitGenPre c7L c7w c7H).rest 16).1,
      ((Grisu2RoundLoop (Grisu2DigitGenPre c7L c7w c7H).distance
        (Grisu2DigitGenPre c7L c7w c7H).delta
        (Grisu2DigitGenPre c7L c7w c7H).tenKappa
        ((Grisu2DigitGenPre c7L c7w c7H).buffer.getD
          ((Grisu2DigitGenPre c7L c7w c7H).length - 1) 0 : Int)
        (Grisu2DigitGenPre c7L c7w c7H).rest 16).2.1 : Int)) =
      Grisu2RoundLoopExact ((Grisu2DigitGenPre c7L c7w c7H).distance : Int)
        ((Grisu2DigitGenPre c7L c7w c7H).delta : Int)
        ((Grisu2DigitGenPre c7L c7w c7H).tenKappa : Int)
        ((Grisu2DigitGenPre c7L c7w c7H).buffer.getD
          ((Grisu2DigitGenPre c7L c7w c7H).length - 1) 0 : Int)
        ((Grisu2DigitGenPre c7L c7w c7H).rest : Int) 16 :=
  ⟨⟨by decide, by decide, by decide, by decide, by decide, by decide, by decide,
    by decide, by decide⟩,
   grisu2Round_call_safe c7L c7w c7H (by decide) (by decide) (by decide) (by decide)
     (by decide) (by decide) (by decide) (by decide) (by decide)⟩


theorem log2_eq_of (n a : Nat) (h1 : 2^a ≤ n) (h2 : n < 2^(a+1)) : Nat.log2 n = a := by
  have hpos : 0 < (2:Nat)^a := Nat.pow_pos (by norm_num)
  have hn : n ≠ 0 := by omega
  have hl1 := Nat.log2_self_le hn
  have hl2 := Nat.lt_log2_self (n := n)
  by_contra hne
  rcases Nat.lt_or_ge (Nat.log2 n) a with h | h
  · have hx : 2^(Nat.log2 n + 1) ≤ 2^a := Nat.pow_le_pow_right (by norm_num) (by omega)
    omega
  · have hy : a + 1 ≤ Nat.log2 n := by omega
    have hz : 2^(a+1) ≤ 2^(Nat.log2 n) := Nat.pow_le_pow_right (by norm_num) hy
    omega

/-- Floor-division sandwich for the scaled boundaries: multiplying the
boundary significands by a normalized cached power and rounding (as
`Multiply` does) keeps the interval ordered, keeps the upper end between
`2^62` and `c.f`, and transfers the unscaled digit-count inequality
`mp + 6*10^16 <= 10^16 * (mp - mm)` to the scaled interval. -/
theorem scaled_interval_bounds (mmf vf mpf cf : Nat)
    (hmp64 : mpf < 18446744073709551616)
    (hmp63 : 9223372036854775808 ≤ mpf)
    (hcf63 : 9223372036854775808 ≤ cf) (hcf64 : cf < 18446744073709551616)
    (hvm : mmf + 512 ≤ vf) (hpm : vf + 512 ≤ mpf) (hgap : mmf + 1536 ≤ mpf)
    (hkey : mpf + 60000000000000000 + 10000000000000000 * mmf ≤ 10000000000000000 * mpf) :
    (mmf * cf + 9223372036854775808) / 18446744073709551616 + 500 ≤
      (mpf * cf + 9223372036854775808) / 18446744073709551616 ∧
    (mmf * cf + 9223372036854775808) / 18446744073709551616 + 1 ≤
      (vf * cf + 9223372036854775808) / 18446744073709551616 ∧
    (vf * cf + 9223372036854775808) / 18446744073709551616 + 1 ≤
      (mpf * cf + 9223372036854775808) / 18446744073709551616 ∧
    4611686018427387904 ≤ (mpf * cf + 9223372036854775808) / 18446744073709551616 ∧
    (mpf * cf + 9223372036854775808) / 18446744073709551616 ≤ cf ∧
    (mpf * cf + 9223372036854775808) / 18446744073709551616 - 1 ≤
      10000000000000000 *
        ((mpf * cf + 9223372036854775808) / 18446744073709551616 - 1 -
          ((mmf * cf + 9223372036854775808) / 18446744073709551616 + 1)) := by
  have hdA := Nat.div_add_mod' (mpf * cf + 9223372036854775808) 18446744073709551616
  have hmA : (mpf * cf + 9223372036854775808) % 18446744073709551616 <
      18446744073709551616 := Nat.mod_lt _ (by norm_num)
  have hdB := Nat.div_add_mod' (mmf * cf + 9223372036854775808) 18446744073709551616
  have hmB : (mmf * cf + 9223372036854775808) % 18446744073709551616 <
      18446744073709551616 := Nat.mod_lt _ (by norm_num)
  have hdV := Nat.div_add_mod' (vf * cf + 9223372036854775808) 18446744073709551616
  have hmV : (vf * cf + 9223372036854775808) % 18446744073709551616 <
      18446744073709551616 := Nat.mod_lt _ (by norm_num)
  have h1 : (mmf + 1536) * cf ≤ mpf * cf := Nat.mul_le_mul_right cf hgap
  have h1e : (mmf + 1536) * cf = mmf * cf + 1536 * cf := Nat.add_mul _ _ _
  have h2 : (mmf + 512) * cf ≤ vf * cf := Nat.mul_le_mul_right cf hvm
  have h2e : (mmf + 512) * cf = mmf * cf + 512 * cf := Nat.add_mul _ _ _
  have h3 : (vf + 512) * cf ≤ mpf * cf := Nat.mul_le_mul_right cf hpm
  have h3e : (vf + 512) * cf = vf * cf + 512 * cf := Nat.add_mul _ _ _
  have h4 : (mpf + 60000000000000000 + 10000000000000000 * mmf) * cf ≤
      10000000000000000 * mpf * cf := Nat.mul_le_mul_right cf hkey
  have h4e : (mpf + 60000000000000000 + 10000000000000000 * mmf) * cf =
      mpf * cf + 60000000000000000 * cf + 10000000000000000 * (mmf * cf) := by ring
  have h4e2 : 10000000000000000 * mpf * cf = 10000000000000000 * (mpf * cf) := by ring
  have hup : mpf * cf ≤ 18446744073709551615 * cf := Nat.mul_le_mul_right cf (by omega)
  have hlow : 9223372036854775808 * 9223372036854775808 ≤ mpf * cf :=
    Nat.mul_le_mul hmp63 hcf63
  omega

/-- Gap and digit-count facts for the unscaled boundaries of a finite
positive double: the shared exponent lies in `[-1137, 960]`, the midpoints
are at least `512` ulps (of the shared exponent) away from the value, the
full gap is at least `1536`, and `m_plus.f + 6*10^16 <= 10^16 * gap`. -/
theorem double_boundaries_gap_facts (bits : Nat) (hb0 : bits ≠ 0)
    (hblt : bits < 9223372036854775808) (hfin : bits / 4503599627370496 ≠ 2047) :
    -1137 ≤ (ComputeBoundaries 53 1075 bits).m_plus.e ∧
    (ComputeBoundaries 53 1075 bits).m_plus.e ≤ 960 ∧
    (ComputeBoundaries 53 1075 bits).m_minus.f + 512 ≤ (ComputeBoundaries 53 1075 bits).v.f ∧
    (ComputeBoundaries 53 1075 bits).v.f + 512 ≤ (ComputeBoundaries 53 1075 bits).m_plus.f ∧
    (ComputeBoundaries 53 1075 bits).m_minus.f + 1536 ≤
      (ComputeBoundaries 53 1075 bits).m_plus.f ∧
    (ComputeBoundaries 53 1075 bits).m_plus.f + 60000000000000000 +
        10000000000000000 * (ComputeBoundaries 53 1075 bits).m_minus.f ≤
      10000000000000000 * (ComputeBoundaries 53 1075 bits).m_plus.f := by
  obtain ⟨hvne, hvlt⟩ := decodeDiyFp_f_facts 53 1075 bits (by norm_num) hb0
  rw [computeBoundaries_closed 53 1075 bits (by norm_num) (by norm_num) hb0]
  set v := DecodeDiyFp 53 1075 bits with hv
  set lg := Nat.log2 v.f with hlg
  have hlg_le : lg ≤ 52 := by
    have h53 : Nat.log2 v.f < 53 := (Nat.log2_lt hvne).mpr hvlt
    omega
  set lz := 63 - lg with hlz
  have hvge : 2^lg ≤ v.f := Nat.log2_self_le hvne
  have hvlt2 : v.f < 2^(lg+1) := Nat.lt_log2_self
  have hlz11 : 11 ≤ lz := by omega
  have hlz63 : lz ≤ 63 := by omega
  have hvfpos : 1 ≤ v.f := by
    have hp : 0 < (2:Nat)^lg := Nat.pow_pos (by norm_num)
    omega
  have hE2046 : bits / 4503599627370496 ≤ 2046 := by omega
  have hve : -1074 ≤ v.e ∧ v.e ≤ 971 := by
    rw [hv]
    simp only [DecodeDiyFp]
    by_cases h0 : bits / 2^(53-1) = 0
    · rw [if_pos h0]
      constructor
      · show (-1074 : Int) ≤ 1 - (1075 : Nat)
        norm_num
      · show (1 : Int) - (1075 : Nat) ≤ 971
        norm_num
    · rw [if_neg h0]
      have h0' : bits / 4503599627370496 ≠ 0 := h0
      constructor
      · show (-1074 : Int) ≤ ((bits / 4503599627370496 : Nat) : Int) - (1075 : Nat)
        omega
      · show ((bits / 4503599627370496 : Nat) : Int) - (1075 : Nat) ≤ 971
        omega
  by_cases hlow : bits % 2^(53-1) = 0 ∧ 1 < bits / 2^(53-1)
  · rw [if_pos hlow]
    have hvf : v.f = 4503599627370496 := by
      rw [hv]
      simp only [DecodeDiyFp]
      have hlow2 : 1 < bits / 4503599627370496 := hlow.2
      have hE0 : ¬ (bits / 2^(53-1) = 0) := by
        show ¬ (bits / 4503599627370496 = 0)
        omega
      rw [if_neg hE0]
      show bits % 4503599627370496 + 4503599627370496 = 4503599627370496
      have hlow1 : bits % 4503599627370496 = 0 := hlow.1
      omega
    have hlg52 : lg = 52 := by
      rw [hlg, hvf]
      exact log2_eq_of _ 52 (by norm_num) (by norm_num)
    have hlzeq : lz = 11 := by omega
    rw [hlzeq, hvf]
    refine ⟨?_, ?_, ?_, ?_, ?_, ?_⟩
    · show (-1137 : Int) ≤ v.e - ((11 : Nat) : Int)
      omega
    · show v.e - ((11 : Nat) : Int) ≤ 960
      omega
    · show (4 * 4503599627370496 - 1) * 2 ^ (11 - 2) + 512 ≤ 4503599627370496 * 2 ^ 11
      decide
    · show 4503599627370496 * 2 ^ 11 + 512 ≤ (2 * 4503599627370496 + 1) * 2 ^ (11 - 1)
      decide
    · show (4 * 4503599627370496 - 1) * 2 ^ (11 - 2) + 1536 ≤
        (2 * 4503599627370496 + 1) * 2 ^ (11 - 1)
      decide
    · show (2 * 4503599627370496 + 1) * 2 ^ (11 - 1) + 60000000000000000 +
          10000000000000000 * ((4 * 4503599627370496 - 1) * 2 ^ (11 - 2)) ≤
        10000000000000000 * ((2 * 4503599627370496 + 1) * 2 ^ (11 - 1))
      decide
  · rw [if_neg hlow]
    have hsp : (2:Nat)^lz = 2 * 2^(lz - 1) := by
      conv_lhs => rw [show lz = (lz - 1) + 1 by omega]
      rw [Nat.pow_succ']
    have hX : 1024 ≤ (2:Nat)^(lz - 1) := by
      calc (1024:Nat) = 2^10 := by norm_num
        _ ≤ 2^(lz - 1) := Nat.pow_le_pow_right (by norm_num) (by omega)
    have e1 : (2 * v.f - 1) * 2^(lz - 1) = (2 * v.f) * 2^(lz - 1) - 1 * 2^(lz - 1) :=
      Nat.sub_mul _ _ _
    have e2 : (2 * v.f) * 2^(lz - 1) = 2 * (v.f * 2^(lz - 1)) := by ring
    have e3 : (2 * v.f + 1) * 2^(lz - 1) = 2 * (v.f * 2^(lz - 1)) + 2^(lz - 1) := by ring
    have e4 : v.f * 2^lz = 2 * (v.f * 2^(lz - 1)) := by rw [hsp]; ring
    have hPX : 2^(lz - 1) ≤ v.f * 2^(lz - 1) := Nat.le_mul_of_pos_left _ hvfpos
    have hmp_no : (2 * v.f + 1) * 2^(lz - 1) < 18446744073709551616 := by
      have ha : (2 * v.f + 1) * 2^(lz - 1) < 2^(lg + 2) * 2^(lz - 1) := by
        apply (Nat.mul_lt_mul_right (Nat.pow_pos (by norm_num))).mpr
        have hpow2 : (2:Nat)^(lg + 2) = 4 * 2^lg := by rw [Nat.pow_add]; ring
        omega
      have hb2 : (2:Nat)^(lg + 2) * 2^(lz - 1) ≤ 2^64 := by
        rw [← Nat.pow_add]
        exact Nat.pow_le_pow_right (by omega) (by omega)
      have h64 : (2:Nat)^64 = 18446744073709551616 := by norm_num
      omega
    refine ⟨?_, ?_, ?_, ?_, ?_, ?_⟩
    · show (-1137 : Int) ≤ v.e - ((lz : Nat) : Int)
      omega
    · show v.e - ((lz : Nat) : Int) ≤ 960
      omega
    · show (2 * v.f - 1) * 2^(lz - 1) + 512 ≤ v.f * 2^lz
      omega
    · show v.f * 2^lz + 512 ≤ (2 * v.f + 1) * 2^(lz - 1)
      omega
    · show (2 * v.f - 1) * 2^(lz - 1) + 1536 ≤ (2 * v.f + 1) * 2^(lz - 1)
      omega
    · show (2 * v.f + 1) * 2^(lz - 1) + 60000000000000000 +
          10000000000000000 * ((2 * v.f - 1) * 2^(lz - 1)) ≤
        10000000000000000 * ((2 * v.f + 1) * 2^(lz - 1))
      omega

/-- Closed form of the scaling prologue `Grisu2Scaled`: each component is a
rounded 128-bit product with the cached power selected for `v.e`. -/
theorem grisu2Scaled_eq (mm v mp : DiyFp)
    (hmm : mm.f < 18446744073709551616) (hv : v.f < 18446744073709551616)
    (hmp : mp.f < 18446744073709551616)
    (hcf : (GetCachedPowerForBinaryExponent v.e).f < 18446744073709551616) :
    Grisu2Scaled mm v mp =
      (⟨u64 ((mm.f * (GetCachedPowerForBinaryExponent v.e).f + 9223372036854775808) /
          18446744073709551616 + 1),
        mm.e + (GetCachedPowerForBinaryExponent v.e).e + 64⟩,
       ⟨(v.f * (GetCachedPowerForBinaryExponent v.e).f + 9223372036854775808) /
          18446744073709551616,
        v.e + (GetCachedPowerForBinaryExponent v.e).e + 64⟩,
       ⟨(mp.f * (GetCachedPowerForBinaryExponent v.e).f + 9223372036854775808) /
          18446744073709551616 - 1,
        mp.e + (GetCachedPowerForBinaryExponent v.e).e + 64⟩) := by
  simp only [Grisu2Scaled, Multiply]
  rw [MultiplyUint128_eq_spec mm
      ⟨(GetCachedPowerForBinaryExponent v.e).f, (GetCachedPowerForBinaryExponent v.e).e⟩
      hmm hcf,
    MultiplyUint128_eq_spec v
      ⟨(GetCachedPowerForBinaryExponent v.e).f, (GetCachedPowerForBinaryExponent v.e).e⟩
      hv hcf,
    MultiplyUint128_eq_spec mp
      ⟨(GetCachedPowerForBinaryExponent v.e).f, (GetCachedPowerForBinaryExponent v.e).e⟩
      hmp hcf]
  rfl

/-- Digit-count bound for `Grisu2DigitGen` under the interval facts that
`Grisu2` establishes for its scaled triple `(L, w, H)`: the digit count is at
most 17, and in the fractional branch the running length stays below 17 at
every iteration. -/
theorem digitGen_length_spec (L w H : DiyFp)
    (he1 : kAlpha ≤ H.e) (he2 : H.e ≤ -34)
    (hLw : L.f ≤ w.f) (hwH : w.f ≤ H.f)
    (hH60 : 1152921504606846976 ≤ H.f) (hH : H.f < 18446744073709551616)
    (hp1hi : H.f / 2^(-H.e).toNat ≤ 798336123)
    (hkey : H.f ≤ 10000000000000000 * (Subtract H L).f) :
    (Grisu2DigitGenPre L w H).length ≤ 17 ∧
    ((Subtract H L).f < H.f % u64 (2^(-H.e).toNat) →
      ∀ i, i < (Grisu2FracLoop (u64 (2^(-H.e).toNat)) (H.f % u64 (2^(-H.e).toNat))
          ((Subtract H L).f) ((Subtract H w).f) 64).m →
        (GenerateIntegralDigits (H.f / 2^(-H.e).toNat % 4294967296)).length + i < 17) := by
  have hs2 : (-H.e).toNat ≤ 60 := by
    rw [kAlpha] at he1
    omega
  have hpowle : (2:Nat)^(-H.e).toNat ≤ 1152921504606846976 := by
    calc (2:Nat)^(-H.e).toNat ≤ 2^60 := Nat.pow_le_pow_right (by norm_num) hs2
      _ = 1152921504606846976 := by norm_num
  have hu : u64 (2^(-H.e).toNat) = 2^(-H.e).toNat := Nat.mod_eq_of_lt (by omega)
  have hponat : 0 < (2:Nat)^(-H.e).toNat := Nat.pow_pos (by norm_num)
  have hdeltaf : (Subtract H L).f = H.f - L.f := rfl
  have hdistf : (Subtract H w).f = H.f - w.f := rfl
  have hdd : (Subtract H w).f ≤ (Subtract H L).f := by
    rw [hdeltaf, hdistf]
    omega
  have hp1eq : H.f / 2^(-H.e).toNat % 4294967296 = H.f / 2^(-H.e).toNat :=
    Nat.mod_eq_of_lt (by omega)
  have hp1pos : 1 ≤ H.f / 2^(-H.e).toNat := Nat.div_pos (by omega) hponat
  obtain ⟨hk1, hk9, h10k, hp1u, hdig⟩ :=
    generateIntegralDigits_spec (H.f / 2^(-H.e).toNat) hp1pos (by omega)
  have hHsplit : H.f / 2^(-H.e).toNat * 2^(-H.e).toNat + H.f % 2^(-H.e).toNat = H.f :=
    Nat.div_add_mod' _ _
  simp only [Grisu2DigitGenPre]
  rw [hu, hp1eq]
  by_cases hbr : (Subtract H L).f < H.f % 2 ^ (-H.e).toNat
  · rw [if_pos hbr]
    obtain ⟨hm64, hm1, hexit3, hlen, hdel, hdis, hrlt, hexif, hexprop⟩ :=
      fracLoop_spec (2^(-H.e).toNat) hponat hpowle 64 (H.f % 2^(-H.e).toNat)
        ((Subtract H L).f) ((Subtract H w).f) (Nat.mod_lt _ hponat) hbr hdd
    have hm1' : 1 ≤ (Grisu2FracLoop (2^(-H.e).toNat) (H.f % 2^(-H.e).toNat)
        ((Subtract H L).f) ((Subtract H w).f) 64).m := hm1 (by norm_num)
    have hmodM : (10^((Grisu2FracLoop (2^(-H.e).toNat) (H.f % 2^(-H.e).toNat)
        ((Subtract H L).f) ((Subtract H w).f) 64).m - 1) * (H.f % 2^(-H.e).toNat)) %
        2^(-H.e).toNat < 2^(-H.e).toNat := Nat.mod_lt _ hponat
    have hdm : (Subtract H L).f * 10^((Grisu2FracLoop (2^(-H.e).toNat)
        (H.f % 2^(-H.e).toNat) ((Subtract H L).f) ((Subtract H w).f) 64).m - 1) <
        2^(-H.e).toNat := by omega
    have hA1 : 10^((GenerateIntegralDigits (H.f / 2^(-H.e).toNat)).length - 1) *
        2^(-H.e).toNat ≤ 10000000000000000 * (Subtract H L).f := by
      have t1 : 10^((GenerateIntegralDigits (H.f / 2^(-H.e).toNat)).length - 1) *
          2^(-H.e).toNat ≤ (H.f / 2^(-H.e).toNat) * 2^(-H.e).toNat :=
        Nat.mul_le_mul_right _ h10k
      omega
    have hchain1 : 10^((GenerateIntegralDigits (H.f / 2^(-H.e).toNat)).length - 1) *
        2^(-H.e).toNat *
        10^((Grisu2FracLoop (2^(-H.e).toNat) (H.f % 2^(-H.e).toNat)
          ((Subtract H L).f) ((Subtract H w).f) 64).m - 1) ≤
        10000000000000000 * ((Subtract H L).f *
          10^((Grisu2FracLoop (2^(-H.e).toNat) (H.f % 2^(-H.e).toNat)
            ((Subtract H L).f) ((Subtract H w).f) 64).m - 1)) := by
      calc 10^((GenerateIntegralDigits (H.f / 2^(-H.e).toNat)).length - 1) *
          2^(-H.e).toNat *
          10^((Grisu2FracLoop (2^(-H.e).toNat) (H.f % 2^(-H.e).toNat)
            ((Subtract H L).f) ((Subtract H w).f) 64).m - 1) ≤
          (10000000000000000 * (Subtract H L).f) *
            10^((Grisu2FracLoop (2^(-H.e).toNat) (H.f % 2^(-H.e).toNat)
              ((Subtract H L).f) ((Subtract H w).f) 64).m - 1) :=
        Nat.mul_le_mul_right _ hA1
        _ = 10000000000000000 * ((Subtract H L).f *
            10^((Grisu2FracLoop (2^(-H.e).toNat) (H.f % 2^(-H.e).toNat)
              ((Subtract H L).f) ((Subtract H w).f) 64).m - 1)) := by ring
    have hchain2 : 10000000000000000 * ((Subtract H L).f *
        10^((Grisu2FracLoop (2^(-H.e).toNat) (H.f % 2^(-H.e).toNat)
          ((Subtract H L).f) ((Subtract H w).f) 64).m - 1)) <
        10000000000000000 * 2^(-H.e).toNat :=
      (mul_lt_mul_left (by norm_num : (0:Nat) < 10000000000000000)).mpr hdm
    have hchain4 : 10^((GenerateIntegralDigits (H.f / 2^(-H.e).toNat)).length - 1) *
        10^((Grisu2FracLoop (2^(-H.e).toNat) (H.f % 2^(-H.e).toNat)
          ((Subtract H L).f) ((Subtract H w).f) 64).m - 1) * 2^(-H.e).toNat <
        10000000000000000 * 2^(-H.e).toNat := by
      calc 10^((GenerateIntegralDigits (H.f / 2^(-H.e).toNat)).length - 1) *
          10^((Grisu2FracLoop (2^(-H.e).toNat) (H.f % 2^(-H.e).toNat)
            ((Subtract H L).f) ((Subtract H w).f) 64).m - 1) * 2^(-H.e).toNat =
          10^((GenerateIntegralDigits (H.f / 2^(-H.e).toNat)).length - 1) *
            2^(-H.e).toNat *
            10^((Grisu2FracLoop (2^(-H.e).toNat) (H.f % 2^(-H.e).toNat)
              ((Subtract H L).f) ((Subtract H w).f) 64).m - 1) := by ring
        _ ≤ 10000000000000000 * ((Subtract H L).f *
            10^((Grisu2FracLoop (2^(-H.e).toNat) (H.f % 2^(-H.e).toNat)
              ((Subtract H L).f) ((Subtract H w).f) 64).m - 1)) := hchain1
        _ < 10000000000000000 * 2^(-H.e).toNat := hchain2
    have hchain5 : 10^((GenerateIntegralDigits (H.f / 2^(-H.e).toNat)).length - 1) *
        10^((Grisu2FracLoop (2^(-H.e).toNat) (H.f % 2^(-H.e).toNat)
          ((Subtract H L).f) ((Subtract H w).f) 64).m - 1) < 10000000000000000 :=
      (Nat.mul_lt_mul_right hponat).mp hchain4
    have hchain6 : (10:Nat)^((GenerateIntegralDigits (H.f / 2^(-H.e).toNat)).length - 1 +
        ((Grisu2FracLoop (2^(-H.e).toNat) (H.f % 2^(-H.e).toNat)
          ((Subtract H L).f) ((Subtract H w).f) 64).m - 1)) < 10000000000000000 := by
      rw [pow_add]
      exact hchain5
    have hkm : (GenerateIntegralDigits (H.f / 2^(-H.e).toNat)).length +
        (Grisu2FracLoop (2^(-H.e).toNat) (H.f % 2^(-H.e).toNat)
          ((Subtract H L).f) ((Subtract H w).f) 64).m ≤ 17 := by
      by_contra hc
      push_neg at hc
      have hge : (10:Nat)^16 ≤
          10^((GenerateIntegralDigits (H.f / 2^(-H.e).toNat)).length - 1 +
            ((Grisu2FracLoop (2^(-H.e).toNat) (H.f % 2^(-H.e).toNat)
              ((Subtract H L).f) ((Subtract H w).f) 64).m - 1)) :=
        Nat.pow_le_pow_right (by norm_num) (by omega)
      have h16 : (10:Nat)^16 = 10000000000000000 := by norm_num
      omega
    constructor
    · show (GenerateIntegralDigits (H.f / 2^(-H.e).toNat)).length +
        (Grisu2FracLoop (2^(-H.e).toNat) (H.f % 2^(-H.e).toNat)
          ((Subtract H L).f) ((Subtract H w).f) 64).m ≤ 17
      exact hkm
    · intro _ i hi
      omega
  · rw [if_neg hbr]
    constructor
    · show (Grisu2TrimLoop (GenerateIntegralDigits (H.f / 2^(-H.e).toNat))
        (GenerateIntegralDigits (H.f / 2^(-H.e).toNat)).length
        ((Subtract H L).f) (H.f % 2^(-H.e).toNat) (2^(-H.e).toNat) 0 32).1 ≤ 17
      calc (Grisu2TrimLoop (GenerateIntegralDigits (H.f / 2^(-H.e).toNat))
          (GenerateIntegralDigits (H.f / 2^(-H.e).toNat)).length
          ((Subtract H L).f) (H.f % 2^(-H.e).toNat) (2^(-H.e).toNat) 0 32).1 ≤
          (GenerateIntegralDigits (H.f / 2^(-H.e).toNat)).length :=
        trimLoop_length_le _ _ _ 32 _ _ _
        _ ≤ 17 := by omega
    · intro hc
      exact absurd hc hbr

/-- **C6.** In `Grisu2DigitGen` under its preconditions — `(L, w, H)` the
scaled triple produced by `Grisu2` for a finite positive double, with shared
exponent in `[kAlpha, kGamma]` and `L.f ≤ w.f ≤ H.f` — the total digit count
returned never exceeds `max_digits10 = 17`, and at the start of every
iteration of the fractional-digit loop the running length (integral digit
count plus fractional digits written so far) is strictly below 17. -/
theorem grisu2_digit_count (bits : Nat) (L w H : DiyFp)
    (hb0 : bits ≠ 0) (hblt : bits < 9223372036854775808)
    (hfin : bits / 4503599627370496 ≠ 2047)
    (hLwH : (L, w, H) = Grisu2Scaled (ComputeBoundaries 53 1075 bits).m_minus
      (ComputeBoundaries 53 1075 bits).v (ComputeBoundaries 53 1075 bits).m_plus) :
    (Grisu2Bits 53 1075 bits).2.1 ≤ 17 ∧
    ((Subtract H L).f < H.f % u64 (2^(-H.e).toNat) →
      ∀ i, i < (Grisu2FracLoop (u64 (2^(-H.e).toNat)) (H.f % u64 (2^(-H.e).toNat))
          ((Subtract H L).f) ((Subtract H w).f) 64).m →
        (GenerateIntegralDigits (H.f / 2^(-H.e).toNat % 4294967296)).length + i < 17) := by
  obtain ⟨hev, hem, hv63, hv64, hmp63, hmp64, hmm62, hmm64, hval1, hval2, hval3⟩ :=
    computeBoundaries_props 53 1075 bits (by norm_num) (by norm_num) hb0
  obtain ⟨he1, he2, hg1, hg2, hg3, hg4⟩ := double_boundaries_gap_facts bits hb0 hblt hfin
  obtain ⟨hi1, hi2, hcf63, hcf64, hw1, hw2, hcp1⟩ :=
    cachedPower_props (ComputeBoundaries 53 1075 bits).v.e (by rw [hev]; exact he1) (by rw [hev]; exact he2)
  have hS := grisu2Scaled_eq (ComputeBoundaries 53 1075 bits).m_minus (ComputeBoundaries 53 1075 bits).v (ComputeBoundaries 53 1075 bits).m_plus hmm64 hv64 hmp64 hcf64
  obtain ⟨sb1, sb2, sb3, sb4, sb5, sb6⟩ :=
    scaled_interval_bounds (ComputeBoundaries 53 1075 bits).m_minus.f (ComputeBoundaries 53 1075 bits).v.f (ComputeBoundaries 53 1075 bits).m_plus.f (GetCachedPowerForBinaryExponent (ComputeBoundaries 53 1075 bits).v.e).f
      hmp64 hmp63 hcf63 hcf64 hg1 hg2 hg3 hg4
  rw [hS, Prod.mk.injEq, Prod.mk.injEq] at hLwH
  obtain ⟨hLeq, hweq, hHeq⟩ := hLwH
  subst hLeq
  subst hweq
  subst hHeq
  have hwmf64 : ((ComputeBoundaries 53 1075 bits).m_minus.f * (GetCachedPowerForBinaryExponent (ComputeBoundaries 53 1075 bits).v.e).f + 9223372036854775808) / 18446744073709551616 + 1 < 18446744073709551616 := by omega
  have huL : u64 (((ComputeBoundaries 53 1075 bits).m_minus.f * (GetCachedPowerForBinaryExponent (ComputeBoundaries 53 1075 bits).v.e).f + 9223372036854775808) / 18446744073709551616 + 1) = ((ComputeBoundaries 53 1075 bits).m_minus.f * (GetCachedPowerForBinaryExponent (ComputeBoundaries 53 1075 bits).v.e).f + 9223372036854775808) / 18446744073709551616 + 1 := Nat.mod_eq_of_lt hwmf64
  have he1' : kAlpha ≤ (ComputeBoundaries 53 1075 bits).m_plus.e + (GetCachedPowerForBinaryExponent (ComputeBoundaries 53 1075 bits).v.e).e + 64 := by
    rw [kAlpha]
    rw [kAlpha] at hw1
    omega
  have he2' : (ComputeBoundaries 53 1075 bits).m_plus.e + (GetCachedPowerForBinaryExponent (ComputeBoundaries 53 1075 bits).v.e).e + 64 ≤ -34 := by omega
  have hLw' : u64 (((ComputeBoundaries 53 1075 bits).m_minus.f * (GetCachedPowerForBinaryExponent (ComputeBoundaries 53 1075 bits).v.e).f + 9223372036854775808) / 18446744073709551616 + 1) ≤ ((ComputeBoundaries 53 1075 bits).v.f * (GetCachedPowerForBinaryExponent (ComputeBoundaries 53 1075 bits).v.e).f + 9223372036854775808) / 18446744073709551616 := by
    rw [huL]
    omega
  have hwH' : ((ComputeBoundaries 53 1075 bits).v.f * (GetCachedPowerForBinaryExponent (ComputeBoundaries 53 1075 bits).v.e).f + 9223372036854775808) / 18446744073709551616 ≤ ((ComputeBoundaries 53 1075 bits).m_plus.f * (GetCachedPowerForBinaryExponent (ComputeBoundaries 53 1075 bits).v.e).f + 9223372036854775808) / 18446744073709551616 - 1 := by omega
  have hH60' : 1152921504606846976 ≤ ((ComputeBoundaries 53 1075 bits).m_plus.f * (GetCachedPowerForBinaryExponent (ComputeBoundaries 53 1075 bits).v.e).f + 9223372036854775808) / 18446744073709551616 - 1 := by omega
  have hH64' : ((ComputeBoundaries 53 1075 bits).m_plus.f * (GetCachedPowerForBinaryExponent (ComputeBoundaries 53 1075 bits).v.e).f + 9223372036854775808) / 18446744073709551616 - 1 < 18446744073709551616 := by omega
  have hexpn : (-((ComputeBoundaries 53 1075 bits).m_plus.e + (GetCachedPowerForBinaryExponent (ComputeBoundaries 53 1075 bits).v.e).e + 64)).toNat = (-((GetCachedPowerForBinaryExponent (ComputeBoundaries 53 1075 bits).v.e).e + (ComputeBoundaries 53 1075 bits).v.e + 64)).toNat := by
    rw [hev]
    ring_nf
  have hp1hi' : (((ComputeBoundaries 53 1075 bits).m_plus.f * (GetCachedPowerForBinaryExponent (ComputeBoundaries 53 1075 bits).v.e).f + 9223372036854775808) / 18446744073709551616 - 1) / 2^(-((ComputeBoundaries 53 1075 bits).m_plus.e + (GetCachedPowerForBinaryExponent (ComputeBoundaries 53 1075 bits).v.e).e + 64)).toNat ≤ 798336123 := by
    rw [hexpn]
    calc (((ComputeBoundaries 53 1075 bits).m_plus.f * (GetCachedPowerForBinaryExponent (ComputeBoundaries 53 1075 bits).v.e).f + 9223372036854775808) / 18446744073709551616 - 1) / 2^(-((GetCachedPowerForBinaryExponent (ComputeBoundaries 53 1075 bits).v.e).e + (ComputeBoundaries 53 1075 bits).v.e + 64)).toNat ≤
        ((GetCachedPowerForBinaryExponent (ComputeBoundaries 53 1075 bits).v.e).f - 1) / 2^(-((GetCachedPowerForBinaryExponent (ComputeBoundaries 53 1075 bits).v.e).e + (ComputeBoundaries 53 1075 bits).v.e + 64)).toNat :=
      Nat.div_le_div_right (by omega)
      _ ≤ 798336123 := hcp1
  have hkey' : ((ComputeBoundaries 53 1075 bits).m_plus.f * (GetCachedPowerForBinaryExponent (ComputeBoundaries 53 1075 bits).v.e).f + 9223372036854775808) / 18446744073709551616 - 1 ≤
      10000000000000000 * (Subtract (⟨((ComputeBoundaries 53 1075 bits).m_plus.f * (GetCachedPowerForBinaryExponent (ComputeBoundaries 53 1075 bits).v.e).f + 9223372036854775808) / 18446744073709551616 - 1, (ComputeBoundaries 53 1075 bits).m_plus.e + (GetCachedPowerForBinaryExponent (ComputeBoundaries 53 1075 bits).v.e).e + 64⟩ : DiyFp) (⟨u64 (((ComputeBoundaries 53 1075 bits).m_minus.f * (GetCachedPowerForBinaryExponent (ComputeBoundaries 53 1075 bits).v.e).f + 9223372036854775808) / 18446744073709551616 + 1), (ComputeBoundaries 53 1075 bits).m_minus.e + (GetCachedPowerForBinaryExponent (ComputeBoundaries 53 1075 bits).v.e).e + 64⟩ : DiyFp)).f := by
    have hsub : (Subtract (⟨((ComputeBoundaries 53 1075 bits).m_plus.f * (GetCachedPowerForBinaryExponent (ComputeBoundaries 53 1075 bits).v.e).f + 9223372036854775808) / 18446744073709551616 - 1, (ComputeBoundaries 53 1075 bits).m_plus.e + (GetCachedPowerForBinaryExponent (ComputeBoundaries 53 1075 bits).v.e).e + 64⟩ : DiyFp) (⟨u64 (((ComputeBoundaries 53 1075 bits).m_minus.f * (GetCachedPowerForBinaryExponent (ComputeBoundaries 53 1075 bits).v.e).f + 9223372036854775808) / 18446744073709551616 + 1), (ComputeBoundaries 53 1075 bits).m_minus.e + (GetCachedPowerForBinaryExponent (ComputeBoundaries 53 1075 bits).v.e).e + 64⟩ : DiyFp)).f = (((ComputeBoundaries 53 1075 bits).m_plus.f * (GetCachedPowerForBinaryExponent (ComputeBoundaries 53 1075 bits).v.e).f + 9223372036854775808) / 18446744073709551616 - 1) - u64 (((ComputeBoundaries 53 1075 bits).m_minus.f * (GetCachedPowerForBinaryExponent (ComputeBoundaries 53 1075 bits).v.e).f + 9223372036854775808) / 18446744073709551616 + 1) := rfl
    rw [hsub, huL]
    exact sb6
  have hspec := digitGen_length_spec (⟨u64 (((ComputeBoundaries 53 1075 bits).m_minus.f * (GetCachedPowerForBinaryExponent (ComputeBoundaries 53 1075 bits).v.e).f + 9223372036854775808) / 18446744073709551616 + 1), (ComputeBoundaries 53 1075 bits).m_minus.e + (GetCachedPowerForBinaryExponent (ComputeBoundaries 53 1075 bits).v.e).e + 64⟩ : DiyFp) (⟨((ComputeBoundaries 53 1075 bits).v.f * (GetCachedPowerForBinaryExponent (ComputeBoundaries 53 1075 bits).v.e).f + 9223372036854775808) / 18446744073709551616, (ComputeBoundaries 53 1075 bits).v.e + (GetCachedPowerForBinaryExponent (ComputeBoundaries 53 1075 bits).v.e).e + 64⟩ : DiyFp) (⟨((ComputeBoundaries 53 1075 bits).m_plus.f * (GetCachedPowerForBinaryExponent (ComputeBoundaries 53 1075 bits).v.e).f + 9223372036854775808) / 18446744073709551616 - 1, (ComputeBoundaries 53 1075 bits).m_plus.e + (GetCachedPowerForBinaryExponent (ComputeBoundaries 53 1075 bits).v.e).e + 64⟩ : DiyFp)
    he1' he2' hLw' hwH' hH60' hH64' hp1hi' hkey'
  refine ⟨?_, hspec.2⟩
  have hred : (Grisu2Bits 53 1075 bits).2.1 =
      (Grisu2DigitGenPre (⟨u64 (((ComputeBoundaries 53 1075 bits).m_minus.f * (GetCachedPowerForBinaryExponent (ComputeBoundaries 53 1075 bits).v.e).f + 9223372036854775808) / 18446744073709551616 + 1), (ComputeBoundaries 53 1075 bits).m_minus.e + (GetCachedPowerForBinaryExponent (ComputeBoundaries 53 1075 bits).v.e).e + 64⟩ : DiyFp) (⟨((ComputeBoundaries 53 1075 bits).v.f * (GetCachedPowerForBinaryExponent (ComputeBoundaries 53 1075 bits).v.e).f + 9223372036854775808) / 18446744073709551616, (ComputeBoundaries 53 1075 bits).v.e + (GetCachedPowerForBinaryExponent (ComputeBoundaries 53 1075 bits).v.e).e + 64⟩ : DiyFp) (⟨((ComputeBoundaries 53 1075 bits).m_plus.f * (GetCachedPowerForBinaryExponent (ComputeBoundaries 53 1075 bits).v.e).f + 9223372036854775808) / 18446744073709551616 - 1, (ComputeBoundaries 53 1075 bits).m_plus.e + (GetCachedPowerForBinaryExponent (ComputeBoundaries 53 1075 bits).v.e).e + 64⟩ : DiyFp)).length := by
    simp only [Grisu2Bits, Grisu2Core, Grisu2DigitGen]
    rw [hS]
  rw [hred]
  exact hspec.1

/-- Witness for `grisu2_digit_count` at the double `1.5`
(bit pattern `0x3FF8000000000000`). -/
theorem grisu2_digit_count_witness :
    ((4609434218613702656 : Nat) ≠ 0 ∧
      (4609434218613702656 : Nat) < 9223372036854775808 ∧
      (4609434218613702656 : Nat) / 4503599627370496 ≠ 2047 ∧
      ((⟨8444249301319679376, -49⟩ : DiyFp), (⟨8444249301319680000, -49⟩ : DiyFp), (⟨8444249301319680624, -49⟩ : DiyFp)) =
        Grisu2Scaled (ComputeBoundaries 53 1075 4609434218613702656).m_minus
          (ComputeBoundaries 53 1075 4609434218613702656).v
          (ComputeBoundaries 53 1075 4609434218613702656).m_plus) ∧
    ((Grisu2Bits 53 1075 4609434218613702656).2.1 ≤ 17 ∧
    ((Subtract (⟨8444249301319680624, -49⟩ : DiyFp) (⟨8444249301319679376, -49⟩ : DiyFp)).f < (⟨8444249301319680624, -49⟩ : DiyFp).f % u64 (2^(-(⟨8444249301319680624, -49⟩ : DiyFp).e).toNat) →
      ∀ i, i < (Grisu2FracLoop (u64 (2^(-(⟨8444249301319680624, -49⟩ : DiyFp).e).toNat)) ((⟨8444249301319680624, -49⟩ : DiyFp).f % u64 (2^(-(⟨8444249301319680624, -49⟩ : DiyFp).e).toNat))
          ((Subtract (⟨8444249301319680624, -49⟩ : DiyFp) (⟨8444249301319679376, -49⟩ : DiyFp)).f) ((Subtract (⟨8444249301319680624, -49⟩ : DiyFp) (⟨8444249301319680000, -49⟩ : DiyFp)).f) 64).m →
        (GenerateIntegralDigits ((⟨8444249301319680624, -49⟩ : DiyFp).f / 2^(-(⟨8444249301319680624, -49⟩ : DiyFp).e).toNat % 4294967296)).length + i < 17)) :=
  ⟨⟨by decide, by decide, by decide, by decide⟩,
   grisu2_digit_count 4609434218613702656 ⟨8444249301319679376, -49⟩
     ⟨8444249301319680000, -49⟩ ⟨8444249301319680624, -49⟩
     (by decide) (by decide) (by decide) (by decide)⟩


end Grisu
